import Mathlib

/-!
Verification development for the FLAPP senior-security analysis scripts
(`security_auditor.py`, `threat_modeler.py`, `ble_attack_surface.py`).

The three Python scripts are shallowly embedded below.  Python string
primitives (`split`, `strip`, `startswith`, slicing, `in`, `replace`,
`"\n".join`) are modelled by executable Lean functions over the character
lists of strings, named with a `py` prefix.  The Python `re` module is the
one primitive that is not translated: the pipelines are parameterised over
a `Re` record holding the three regex entry points the scripts use
(`re.search` with and without `re.IGNORECASE`, and `re.finditer` with
`re.IGNORECASE`).  Concrete theorems instantiate `Re` with explicit
functions that implement, by direct string operations, exactly what
Python's `re` returns on the specific pattern/input pairs occurring in
those theorems.
-/

/-- Whitespace test used by the models of Python's `str.strip`.  Python
strips a slightly larger set (also `\x0b`, `\f`); the inputs considered
here only ever carry these four. -/
def isPySpace (c : Char) : Bool :=
  c == ' ' || c == '\t' || c == '\n' || c == '\r'

/-- Model of Python `str.strip()`: drop leading and trailing whitespace. -/
def pyStrip (s : String) : String :=
  ⟨((s.data.dropWhile isPySpace).reverse.dropWhile isPySpace).reverse⟩

/-- Model of Python slicing `s[:n]` (character based, as in Python 3). -/
def pyTake (s : String) (n : Nat) : String :=
  ⟨s.data.take n⟩

/-- Model of Python `s.startswith(p)`. -/
def pyStartsWith (s p : String) : Bool :=
  p.data.isPrefixOf s.data

/-- Model of Python `s.endswith(p)`, used for the `*.dart` glob of `rglob`. -/
def pyEndsWith (s p : String) : Bool :=
  p.data.isSuffixOf s.data

/-- Occurrence test for a character-list needle inside a haystack. -/
def subOccurs (n : List Char) : List Char → Bool
  | [] => n.isEmpty
  | c :: rest => n.isPrefixOf (c :: rest) || subOccurs n rest

/-- Model of Python's `sub in s` substring test. -/
def containsSub (s sub : String) : Bool :=
  subOccurs sub.data s.data

/-- Splitting helper for `pySplitLines`. -/
def splitChAux (sep : Char) : List Char → List Char → List (List Char)
  | [], acc => [acc.reverse]
  | c :: rest, acc =>
    if c = sep then acc.reverse :: splitChAux sep rest []
    else splitChAux sep rest (c :: acc)

/-- Model of Python `content.split("\n")` (the scripts only split on a
single newline character). -/
def pySplitLines (s : String) : List String :=
  (splitChAux '\n' s.data []).map (fun l => ⟨l⟩)

/-- Model of Python `str.replace("\\", "/")` (single-character case). -/
def replaceBackslash (s : String) : String :=
  ⟨s.data.map (fun c => if c = '\\' then '/' else c)⟩

/-- Model of Python `"\n".join(lines)`. -/
def joinLinesAux : List (List Char) → List Char
  | [] => []
  | [x] => x
  | x :: y :: rest => x ++ '\n' :: joinLinesAux (y :: rest)

/-- Model of Python `"\n".join(lines)` on strings. -/
def pyJoinLines (ls : List String) : String :=
  ⟨joinLinesAux (ls.map (fun l => l.data))⟩

/-- Number of `\n` characters in the first `k` characters of `s`, plus one:
this is how the scripts recover a 1-based line number from a regex match
offset (`content[:match.start()].count("\n") + 1`). -/
def lineOfOffset (s : String) (k : Nat) : Nat :=
  (s.data.take k).count '\n' + 1

/-- Literal occurrence scan giving start offsets (character indices) of a
needle inside a haystack, used by the concrete `Re` instances to realise
`re.finditer` for literal patterns whose matches cannot overlap. -/
def litOccsAux (n : List Char) : List Char → Nat → List Nat
  | [], _ => []
  | c :: rest, i =>
    (if n.isPrefixOf (c :: rest) then [i] else []) ++ litOccsAux n rest (i + 1)

/-- Start offsets of occurrences of the literal `needle` in `hay`. -/
def litOccs (needle hay : String) : List Nat :=
  litOccsAux needle.data hay.data 0

/-- Interface to Python's `re` module as consumed by the three scripts:
`searchI pat s` is `re.search(pat, s, re.IGNORECASE) is not None`,
`search pat s` is `re.search(pat, s) is not None`, and `finditerI pat s`
is the list of `match.start()` offsets of `re.finditer(pat, s,
re.IGNORECASE)`. -/
structure Re where
  searchI : String → String → Bool
  search : String → String → Bool
  finditerI : String → String → List Nat

/-- One file of the scanned tree: `path` is the full path string `str(f)`,
`relPath` is `str(f.relative_to(target_path))`, `content` is the text read
from it.  Unreadable files are skipped by every scan, so a corpus holds
the readable files only, in `rglob` traversal order. -/
structure SrcFile where
  path : String
  relPath : String
  content : String
deriving DecidableEq, Repr

/-- The scan environment: the target path as given, whether it exists (the
single validated precondition), the readable files under it, and the
contents of `target/pubspec.yaml` and `target.parent/pubspec.yaml` when
those exist (the parent lies outside the tree, so it is carried
separately). -/
structure Corpus where
  targetPath : String
  targetExists : Bool
  files : List SrcFile
  pubspecRoot : Option String
  pubspecParent : Option String
deriving DecidableEq, Repr

/-- Files matching `rglob(name)` for an exact file name. -/
def hasFilename (p name : String) : Bool :=
  p == name || pyEndsWith p ("/" ++ name)

/-- Finding record of `security_auditor.py` (dataclass `Finding`). -/
structure Finding where
  severity : String
  check : String
  description : String
  file_path : String
  line : Nat
  code_snippet : String
  recommendation : String
deriving DecidableEq, Repr

/-- One entry of the auditor's check tables:
`(pattern, severity, check_name, description, recommendation, category)`. -/
structure Check where
  pattern : String
  severity : String
  check : String
  description : String
  recommendation : String
  category : String
deriving DecidableEq, Repr

/-- CRYPTO_CHECKS of `SecurityAuditor`. -/
def CRYPTO_CHECKS : List Check := [
  ⟨"\\bRandom\\(\\)", "CRIT", "insecure-rng",
   "dart:math Random() is not cryptographically secure",
   "Use sodium.randombytes.buf() or dart:math SecureRandom", "crypto"⟩,
  ⟨"(?:key|secret|password|passphrase)\\s*=\\s*[\x27\"][^\x27\"]\x7b1,100\x7d[\x27\"]",
   "CRIT", "hardcoded-secret",
   "Possible hardcoded cryptographic key or secret",
   "Load keys from flutter_secure_storage, never hardcode", "crypto"⟩,
  ⟨"Uint8List\\(\\d+\\)\\s*(?:;|,)", "HIGH", "zero-nonce",
   "Zero-initialized Uint8List may be used as nonce (all zeros = nonce reuse)",
   "Use sodium.randombytes.buf() for nonces, or verify this is not a nonce", "crypto"⟩,
  ⟨"crypto_aead.*nonce.*=.*(?:0|nonce)", "HIGH", "nonce-reuse-risk",
   "Static or reused nonce in AEAD encryption",
   "Generate fresh random nonce per encryption operation", "crypto"⟩,
  ⟨"catch\\s*\\([^)]*\\)\\s*\\\x7b[^\x7d]*return\\s+(?:data|raw|bytes|payload|ciphertext)",
   "CRIT", "crypto-fallback",
   "Catch block returns original data on crypto failure — bypasses encryption",
   "On crypto failure, return null or rethrow. Never fall back to plaintext", "crypto"⟩]

/-- STORAGE_CHECKS of `SecurityAuditor`. -/
def STORAGE_CHECKS : List Check := [
  ⟨"SharedPreferences.*(?:key|secret|password|token|private)", "CRIT", "secret-in-prefs",
   "Cryptographic material stored in SharedPreferences (unencrypted)",
   "Use flutter_secure_storage for all keys and secrets", "storage"⟩,
  ⟨"File\\(.*\\)\\.writeAs(?:String|Bytes).*(?:key|secret|private)", "CRIT", "secret-in-file",
   "Possible secret written to plain file",
   "Use flutter_secure_storage, not File I/O for secrets", "storage"⟩,
  ⟨"SecureStorage.*delete\\b", "LOW", "key-deletion",
   "Key deletion from secure storage — verify this is intentional",
   "Ensure key deletion is part of planned key rotation or app reset", "storage"⟩]

/-- LOGGING_CHECKS of `SecurityAuditor`. -/
def LOGGING_CHECKS : List Check := [
  ⟨"(?:print|debugPrint|log\\.)\\s*\\([^)]*(?:peerId|peer_id|PeerId|sourceId|destId)",
   "HIGH", "pii-log-peerid", "Peer ID logged — identity leak",
   "Use SecureLogger, truncate or hash peer IDs before logging", "logging"⟩,
  ⟨"(?:print|debugPrint|log\\.)\\s*\\([^)]*(?:secretKey|privateKey|private_key|SecureKey)",
   "CRIT", "key-logged", "Private key material may be logged",
   "Never log key material. Remove this logging statement", "logging"⟩,
  ⟨"(?:print|debugPrint|log\\.)\\s*\\([^)]*(?:latitude|longitude|lat|lng|coordinates|location)",
   "HIGH", "pii-log-location", "GPS coordinates logged — location privacy leak",
   "Use SecureLogger, never log coordinates", "logging"⟩,
  ⟨"(?:print|debugPrint|log\\.)\\s*\\([^)]*(?:passphrase|password|groupKey|group_key)",
   "CRIT", "secret-logged", "Secret or passphrase logged",
   "Remove this logging statement immediately", "logging"⟩,
  ⟨"(?:print|debugPrint)\\s*\\(", "LOW", "debug-print",
   "debugPrint/print statement — ensure removed in release builds",
   "Use SecureLogger or conditional logging (kDebugMode guard)", "logging"⟩]

/-- PROTOCOL_CHECKS of `SecurityAuditor`. -/
def PROTOCOL_CHECKS : List Check := [
  ⟨"\\.decode\\([^)]*\\)(?!\\s*(?:catch|try))", "MED", "unguarded-decode",
   "Decoding without try/catch — malformed BLE data may crash the app",
   "Wrap decode in try/catch, return null on failure", "protocol"⟩,
  ⟨"sublist\\(\\s*\\d+", "MED", "unchecked-sublist",
   "sublist() without prior length check — may throw RangeError",
   "Check data.length >= offset + needed before sublist()", "protocol"⟩,
  ⟨"ByteData\\.view.*getUint(?:8|16|32|64)", "MED", "unchecked-bytedata",
   "ByteData access without length validation — potential out-of-bounds",
   "Validate buffer length before ByteData access", "protocol"⟩]

/-- PERMISSION_CHECKS_ANDROID of `SecurityAuditor`. -/
def PERMISSION_CHECKS_ANDROID : List Check := [
  ⟨"ACCESS_BACKGROUND_LOCATION", "MED", "background-location",
   "Background location permission requested — high privacy impact",
   "Only request if truly needed for background mesh operation", "permissions"⟩,
  ⟨"android:allowBackup\\s*=\\s*\"true\"", "HIGH", "backup-enabled",
   "Android backup enabled — app data (including messages) extractable via ADB",
   "Set android:allowBackup=\"false\" in AndroidManifest.xml", "permissions"⟩,
  ⟨"android:debuggable\\s*=\\s*\"true\"", "CRIT", "debuggable",
   "App is debuggable — allows runtime inspection and data extraction",
   "Ensure debuggable is false in release builds", "permissions"⟩,
  ⟨"usesCleartextTraffic\\s*=\\s*\"true\"", "MED", "cleartext-traffic",
   "Cleartext HTTP traffic allowed",
   "Set usesCleartextTraffic=\"false\" or use networkSecurityConfig", "permissions"⟩]

/-- Concatenation used by `SecurityAuditor._get_checks`. -/
def allChecks : List Check :=
  CRYPTO_CHECKS ++ STORAGE_CHECKS ++ LOGGING_CHECKS ++ PROTOCOL_CHECKS

/-- Model of `SecurityAuditor._get_checks`: with a (truthy) filter, keep
only the checks of that category. -/
def getChecks (filt : Option String) : List Check :=
  match filt with
  | some f => allChecks.filter (fun c => c.category == f)
  | none => allChecks

/-- Comment test of `SecurityAuditor.audit_dart_files`: the stripped line
starts with one of the recognised comment markers. -/
def isCommentLine (line : String) : Bool :=
  let stripped := pyStrip line
  pyStartsWith stripped "//" || pyStartsWith stripped "*" || pyStartsWith stripped "///"

/-- Finding constructor of the auditor's line scans: severity and texts
from the check, 1-based line number, snippet `line.strip()[:120]`. -/
def mkAuditFinding (ch : Check) (relPath : String) (i : Nat) (line : String) : Finding :=
  ⟨ch.severity, ch.check, ch.description, relPath, i, pyTake (pyStrip line) 120,
   ch.recommendation⟩

/-- File filter of `SecurityAuditor.audit_dart_files`: exclude paths
containing `/test/` (on the separator-normalised path) and paths
containing `.g.dart` or `.freezed.dart`. -/
def auditorKeepFile (f : SrcFile) : Bool :=
  !containsSub (replaceBackslash f.path) "/test/" &&
  !containsSub f.path ".g.dart" &&
  !containsSub f.path ".freezed.dart"

/-- Model of `SecurityAuditor.audit_dart_files`: for each kept Dart file,
for each selected check, scan the lines (1-based), skipping comment
lines, and record a finding per matching line. -/
def audit_dart_files (re : Re) (c : Corpus) (filt : Option String) : List Finding :=
  let dartFiles := (c.files.filter (fun f => pyEndsWith f.path ".dart")).filter auditorKeepFile
  dartFiles.flatMap (fun file =>
    let lines := pySplitLines file.content
    (getChecks filt).flatMap (fun ch =>
      (lines.enumFrom 1).filterMap (fun p =>
        if isCommentLine p.2 then none
        else if re.searchI ch.pattern p.2 then some (mkAuditFinding ch file.relPath p.1 p.2)
        else none)))

/-- Model of `SecurityAuditor.audit_android_manifest`: skipped entirely
when a filter other than `permissions` is active; otherwise scan the main
manifests (or all, when no non-debug/profile manifest exists) with the
Android permission checks, without comment suppression. -/
def audit_android_manifest (re : Re) (c : Corpus) (filt : Option String) : List Finding :=
  if (match filt with | some f => f != "permissions" | none => false) then []
  else
    let manifests := c.files.filter (fun f => hasFilename f.path "AndroidManifest.xml")
    let mains := manifests.filter
      (fun m => !containsSub m.path "debug" && !containsSub m.path "profile")
    let chosen := if mains.isEmpty then manifests else mains
    chosen.flatMap (fun m =>
      let lines := pySplitLines m.content
      PERMISSION_CHECKS_ANDROID.flatMap (fun ch =>
        (lines.enumFrom 1).filterMap (fun p =>
          if re.searchI ch.pattern p.2 then some (mkAuditFinding ch m.relPath p.1 p.2)
          else none)))

/-- Model of `SecurityAuditor.audit_ios_plist`: skipped when a filter
other than `permissions` is active; emits one fixed file-level finding per
`Info.plist` containing both `fetch` and `bluetooth`. -/
def iosBackgroundModesFinding (relPath : String) : Finding :=
  ⟨"LOW", "ios-background-modes",
   "Multiple background modes enabled — verify all are necessary",
   relPath, 0, "UIBackgroundModes: bluetooth + fetch",
   "Only enable background modes that are actively used"⟩

/-- Body of `SecurityAuditor.audit_ios_plist` given the finding above. -/
def audit_ios_plist (c : Corpus) (filt : Option String) : List Finding :=
  if (match filt with | some f => f != "permissions" | none => false) then []
  else
    (c.files.filter (fun f => hasFilename f.path "Info.plist")).filterMap (fun p =>
      if containsSub p.content "fetch" && containsSub p.content "bluetooth" then
        some (iosBackgroundModesFinding p.relPath)
      else none)

/-- Finding emitted by `audit_pubspec` when `http:` occurs without
`http_cache`. -/
def httpDependencyFinding : Finding :=
  ⟨"LOW", "http-dependency",
   "HTTP package dependency — ensure HTTPS is enforced in usage",
   "pubspec.yaml", 0, "http dependency in pubspec.yaml",
   "Verify all HTTP calls use HTTPS endpoints"⟩

/-- Finding emitted by `audit_pubspec` when `sodium_libs` is absent. -/
def missingSodiumFinding : Finding :=
  ⟨"HIGH", "missing-sodium",
   "sodium_libs not found in pubspec — crypto operations may use weak alternatives",
   "pubspec.yaml", 0, "sodium_libs not in dependencies",
   "Add sodium_libs dependency for all cryptographic operations"⟩

/-- Finding emitted by `audit_pubspec` when `flutter_secure_storage` is
absent. -/
def missingSecureStorageFinding : Finding :=
  ⟨"HIGH", "missing-secure-storage",
   "flutter_secure_storage not found — secrets may be stored insecurely",
   "pubspec.yaml", 0, "flutter_secure_storage not in dependencies",
   "Add flutter_secure_storage for key and secret persistence"⟩

/-- Model of `SecurityAuditor.audit_pubspec`: skipped when a filter other
than `crypto` is active (`check_filter not in ("crypto", None)` with a
truthy filter reduces to `check_filter != "crypto"`); reads
`target/pubspec.yaml`, falling back to the parent directory. -/
def audit_pubspec (c : Corpus) (filt : Option String) : List Finding :=
  if (match filt with | some f => f != "crypto" | none => false) then []
  else
    match (match c.pubspecRoot with | some s => some s | none => c.pubspecParent) with
    | none => []
    | some content =>
      (if containsSub content "http:" && !containsSub content "http_cache" then
        [httpDependencyFinding] else []) ++
      (if !containsSub content "sodium_libs" then [missingSodiumFinding] else []) ++
      (if !containsSub content "flutter_secure_storage" then
        [missingSecureStorageFinding] else [])

/-- All raw auditor findings in the order `run` accumulates them. -/
def auditorRawFindings (re : Re) (c : Corpus) (filt : Option String) : List Finding :=
  audit_dart_files re c filt ++ audit_android_manifest re c filt ++
  audit_ios_plist c filt ++ audit_pubspec c filt

/-- Severity key of `generate_report`:
`severity_order = {"CRIT": 0, "HIGH": 1, "MED": 2, "LOW": 3}` with
`.get(f.severity, 99)`. -/
def sevRank (s : String) : Nat :=
  if s = "CRIT" then 0 else if s = "HIGH" then 1 else if s = "MED" then 2
  else if s = "LOW" then 3 else 99

/-- The possible values of the severity key. -/
def sevRanks : List Nat := [0, 1, 2, 3, 99]

/-- Model of Python's stable `list.sort(key=rank)` for a key whose values
all lie in `sevRanks`: a stable sort by such a key is exactly the
concatenation of the equal-key blocks in key order, each block in input
order. -/
def pySortByRank {α : Type} (rank : α → Nat) (l : List α) : List α :=
  sevRanks.flatMap (fun r => l.filter (fun x => rank x == r))

/-- Worker for `dedupBy`, carrying the `seen` set of keys. -/
def dedupGo {α κ : Type} [DecidableEq κ] (key : α → κ) : List κ → List α → List α
  | _, [] => []
  | seen, x :: xs =>
    if key x ∈ seen then dedupGo key seen xs
    else x :: dedupGo key (key x :: seen) xs

/-- Model of the dedup loop of `generate_report`: keep the first occurrence
of each key, in input order. -/
def dedupBy {α κ : Type} [DecidableEq κ] (key : α → κ) (l : List α) : List α :=
  dedupGo key [] l

/-- Increment of one key in an insertion-ordered count map, modelling
`d[k] = d.get(k, 0) + 1` on a Python dict. -/
def bumpCount (m : List (String × Nat)) (k : String) : List (String × Nat) :=
  match m with
  | [] => [(k, 1)]
  | (k', v) :: rest => if k' = k then (k', v + 1) :: rest else (k', v) :: bumpCount rest k

/-- Count map grouped by `f`, in first-appearance order, modelling the
summary dicts of the three `generate_report` functions. -/
def countBy {α : Type} (f : α → String) (l : List α) : List (String × Nat) :=
  l.foldl (fun m x => bumpCount m (f x)) []

/-- Sum of the counts of a summary map. -/
def sumCounts (m : List (String × Nat)) : Nat :=
  (m.map (fun p => p.2)).sum

/-- Dedup key of `SecurityAuditor.generate_report`:
`(f.check, f.file_path, f.line)`. -/
def fKey (f : Finding) : String × String × Nat :=
  (f.check, f.file_path, f.line)

/-- Report object of `SecurityAuditor.generate_report`. -/
structure AuditReport where
  target : String
  total_findings : Nat
  by_severity : List (String × Nat)
  by_check : List (String × Nat)
  findings : List Finding
deriving DecidableEq, Repr

/-- Model of `SecurityAuditor.generate_report`: stable sort by severity,
then dedup on `(check, file_path, line)`, then summarise. -/
def generateAuditReport (target : String) (raw : List Finding) : AuditReport :=
  let sorted := pySortByRank (fun f => sevRank f.severity) raw
  let findings := dedupBy fKey sorted
  ⟨target, findings.length, countBy (fun f => f.severity) findings,
   countBy (fun f => f.check) findings, findings⟩

/-- The auditor's report for a corpus and filter. -/
def auditorReport (re : Re) (c : Corpus) (filt : Option String) : AuditReport :=
  generateAuditReport c.targetPath (auditorRawFindings re c filt)

/-- Model of `SecurityAuditor.run`: `validate_target` raises exactly when
the target path does not exist, the exception is caught at the boundary
and turned into `sys.exit(1)`; otherwise the report is produced. -/
def auditorRun (re : Re) (c : Corpus) (filt : Option String) : Except String AuditReport :=
  if c.targetExists then Except.ok (auditorReport re c filt)
  else Except.error "Target path does not exist"

/-- Process exit status of the auditor (0 on success, 1 on the caught
validation error). -/
def auditorExitCode (re : Re) (c : Corpus) (filt : Option String) : Nat :=
  match auditorRun re c filt with
  | Except.ok _ => 0
  | Except.error _ => 1

/-- Threat record of `threat_modeler.py` (dataclass `Threat`):
`file_path` is `None` for catalog threats and `"rel:line"` for custom
threats. -/
structure Threat where
  category : String
  component : String
  description : String
  severity : String
  mitigation : String
  file_path : Option String
deriving DecidableEq, Repr

/-- ThreatModel record of `threat_modeler.py`. -/
structure ThreatModel where
  component : String
  trust_boundary : String
  threats : List Threat
deriving DecidableEq, Repr

/-- BLE_MESH_THREATS of `threat_modeler.py`, in dict insertion order. -/
def BLE_MESH_THREATS : List (String × ThreatModel) := [
  ("transport", ⟨"BLE Transport", "Device ↔ BLE Radio", [
    ⟨"Spoofing", "BLE Transport", "BLE MAC address cloning to impersonate a peer device", "high",
     "Use application-layer identity (Ed25519 keys) not BLE addresses", none⟩,
    ⟨"Tampering", "BLE Transport", "Modification of BLE packets in transit by MITM relay", "medium",
     "Ed25519 signatures on all packets verify integrity end-to-end", none⟩,
    ⟨"Info Disclosure", "BLE Transport", "BLE advertising data leaks peer ID, group, or display name", "high",
     "Minimize advertising payload to service UUID only", none⟩,
    ⟨"Denial of Service", "BLE Transport", "BLE connection slot exhaustion (max 6 on iOS)", "medium",
     "Enforce max connection limits, timeout idle connections", none⟩,
    ⟨"Info Disclosure", "BLE Transport", "BLE signal used for proximity tracking", "medium",
     "Use BLE MAC rotation, randomize advertising intervals", none⟩]⟩),
  ("mesh", ⟨"Mesh Relay", "Local Peer ↔ Relay Network", [
    ⟨"Spoofing", "Mesh Relay", "Forged topology announcements to corrupt routing", "high",
     "Verify Ed25519 signatures on topology packets", none⟩,
    ⟨"Tampering", "Mesh Relay", "TTL manipulation to cause infinite relay loops", "medium",
     "Enforce max TTL (7), decrement on relay, reject TTL > max", none⟩,
    ⟨"Repudiation", "Mesh Relay", "Relay node denies having forwarded a packet", "low",
     "Ed25519 signatures provide non-repudiation for origin", none⟩,
    ⟨"Denial of Service", "Mesh Relay", "Flood attack: unique packets exhaust dedup cache and CPU", "high",
     "Rate-limit relay, cap dedup cache size (1000), LRU eviction", none⟩,
    ⟨"Denial of Service", "Mesh Relay", "Dedup cache poisoning to drop legitimate packets", "medium",
     "Use composite dedup key (source:timestamp:type), time-bound entries", none⟩]⟩),
  ("crypto", ⟨"Cryptography", "Plaintext ↔ Ciphertext", [
    ⟨"Spoofing", "Cryptography", "Forged Noise XX handshake to establish rogue session", "critical",
     "Verify static key in handshake against known/trusted keys", none⟩,
    ⟨"Tampering", "Cryptography", "Modified ciphertext bypasses AEAD authentication", "critical",
     "ChaCha20-Poly1305 AEAD rejects any tampered ciphertext", none⟩,
    ⟨"Info Disclosure", "Cryptography", "Nonce reuse leaks XOR of plaintexts", "critical",
     "Random nonces for group cipher, counter for Noise sessions", none⟩,
    ⟨"Info Disclosure", "Cryptography", "Weak Argon2id params allow group key brute-force", "high",
     "Use opsLimitModerate/memLimitModerate minimum, enforce passphrase length", none⟩,
    ⟨"Elevation", "Cryptography", "Compromised group key allows decryption of all group traffic", "high",
     "Key rotation on member leave, periodic re-keying", none⟩]⟩),
  ("identity", ⟨"Identity & Storage", "App Memory ↔ Persistent Storage", [
    ⟨"Spoofing", "Identity", "Stolen Ed25519 private key enables peer impersonation", "critical",
     "Store in flutter_secure_storage (Android Keystore / iOS Keychain)", none⟩,
    ⟨"Info Disclosure", "Identity", "Keys stored in SharedPreferences readable without root", "critical",
     "Never use SharedPreferences for crypto material", none⟩,
    ⟨"Info Disclosure", "Identity", "PII logged: peer IDs, keys, coordinates in debug output", "high",
     "Use SecureLogger throughout, audit all print/debugPrint calls", none⟩,
    ⟨"Tampering", "Identity", "Modify persisted group membership to gain unauthorized access", "medium",
     "Group membership validated via passphrase-derived key, not just storage flag", none⟩,
    ⟨"Info Disclosure", "Identity", "Chat message JSON files readable on rooted device", "medium",
     "Accept risk or encrypt message files with group key", none⟩]⟩),
  ("protocol", ⟨"Wire Protocol", "Application ↔ Binary Packet Format", [
    ⟨"Tampering", "Protocol", "Malformed packet causes parser crash (DoS via parsing)", "high",
     "Validate all lengths before parsing, use tryDecode with null return", none⟩,
    ⟨"Tampering", "Protocol", "Integer overflow in payload length field", "medium",
     "Cap payload length at 512 bytes, validate before allocation", none⟩,
    ⟨"Info Disclosure", "Protocol", "Message type byte reveals communication patterns to observer", "low",
     "Accept risk (metadata analysis) or pad all packets to uniform size", none⟩,
    ⟨"Spoofing", "Protocol", "Forged source ID in packet header", "high",
     "Ed25519 signature binds packet to sender\x27s signing key", none⟩]⟩)]

/-- Component detection table of `ThreatModeler.scan_components`, in dict
insertion order. -/
def component_patterns : List (String × List String) := [
  ("transport", ["BleTransport", "Transport\\b", "ble_transport", "flutter_blue_plus", "ble_peripheral"]),
  ("mesh", ["MeshService", "RelayController", "Deduplicator", "TopologyTracker", "GossipSync"]),
  ("crypto", ["NoiseProtocol", "NoiseSession", "GroupCipher", "Signatures\\b", "sodium", "ChaCha"]),
  ("identity", ["IdentityManager", "PeerId", "GroupManager", "SecureStorage", "UserProfile"]),
  ("protocol", ["FluxonPacket", "BinaryProtocol", "MessageType", "packet\\.dart"])]

/-- The five component keys in alphabetical order: `scan_components`
stores `sorted(found_components)`, and the found set is always a subset of
these five keys, so the stored list is this list filtered by presence. -/
def sortedComponentKeys : List String :=
  ["crypto", "identity", "mesh", "protocol", "transport"]

/-- Patterns of a component key. -/
def patternsOf (comp : String) : List String :=
  match component_patterns.find? (fun p => p.1 == comp) with
  | some p => p.2
  | none => []

/-- Model of `ThreatModeler.scan_components`: a component is present when
any of its patterns matches (case-sensitively) the full content of any
Dart file; the result is the sorted list of present components.  Note this
scan applies no test/generated-file exclusion. -/
def scan_components (re : Re) (c : Corpus) : List String :=
  let dartFiles := c.files.filter (fun f => pyEndsWith f.path ".dart")
  sortedComponentKeys.filter (fun comp =>
    dartFiles.any (fun f => (patternsOf comp).any (fun pat => re.search pat f.content)))

/-- All threats of the whole static catalog, in catalog order. -/
def allCatalogThreats : List Threat :=
  BLE_MESH_THREATS.flatMap (fun p => p.2.threats)

/-- Model of `ThreatModeler.apply_threat_catalog`: append the threats of
each detected component, then, when no component was detected, append
every catalog threat (conservative fallback). -/
def apply_threat_catalog (comps : List String) : List Threat :=
  (comps.flatMap (fun comp =>
    match BLE_MESH_THREATS.find? (fun p => p.1 == comp) with
    | some m => m.2.threats
    | none => [])) ++
  (if comps.isEmpty then allCatalogThreats else [])

/-- One row of the `risk_patterns` table of
`ThreatModeler.check_custom_threats`:
`(pattern, description, severity, component)`. -/
structure RiskRule where
  pattern : String
  description : String
  severity : String
  component : String
deriving DecidableEq, Repr

/-- The `risk_patterns` table of `ThreatModeler.check_custom_threats`. -/
def risk_patterns : List RiskRule := [
  ⟨"Random\\(\\)", "dart:math Random() usage — not cryptographically secure", "critical", "crypto"⟩,
  ⟨"SharedPreferences.*(?:key|secret|password)", "Possible secret in SharedPreferences", "critical", "identity"⟩,
  ⟨"print\\(.*(key|secret|password|peerId|peer_id)", "Possible PII/key in print statement", "high", "identity"⟩,
  ⟨"debugPrint\\(.*(key|secret|password|peerId|peer_id)", "Possible PII/key in debugPrint", "high", "identity"⟩,
  ⟨"(?:http://)", "HTTP URL (not HTTPS) — cleartext network traffic", "medium", "transport"⟩,
  ⟨"allowBackup.*true", "Android backup enabled — app data extractable", "medium", "identity"⟩,
  ⟨"\\.decode\\(.*\\)(?!.*try)", "Decoding without try/catch — potential crash on malformed input", "medium", "protocol"⟩]

/-- Model of `ThreatModeler.check_custom_threats`: every (case-insensitive)
match of a risk pattern anywhere in a Dart file produces a custom threat
whose location string is `"rel:line"` with the line recovered by newline
counting at the match offset.  Note: no test/generated-file exclusion and
no comment suppression. -/
def check_custom_threats (re : Re) (c : Corpus) : List Threat :=
  let dartFiles := c.files.filter (fun f => pyEndsWith f.path ".dart")
  dartFiles.flatMap (fun f =>
    risk_patterns.flatMap (fun r =>
      (re.finditerI r.pattern f.content).map (fun start =>
        ⟨"Custom", r.component, r.description, r.severity, "Review and fix",
         some (f.relPath ++ ":" ++ toString (lineOfOffset f.content start))⟩)))

/-- Results object of the threat modeler after `generate_report` filled in
the summary (the threats list is neither sorted nor deduplicated). -/
structure ThreatResults where
  threats : List Threat
  components_found : List String
  custom_findings : Nat
  total_threats : Nat
  by_severity : List (String × Nat)
  by_category : List (String × Nat)
deriving DecidableEq, Repr

/-- The threat modeler's pipeline: `scan_components`,
`apply_threat_catalog`, `check_custom_threats`, then the summary of
`generate_report`. -/
def threatResults (re : Re) (c : Corpus) : ThreatResults :=
  let comps := scan_components re c
  let catalogThreats := apply_threat_catalog comps
  let customs := check_custom_threats re c
  let threats := catalogThreats ++ customs
  ⟨threats, comps, customs.length, threats.length,
   countBy (fun t => t.severity) threats, countBy (fun t => t.category) threats⟩

/-- Model of `ThreatModeler.run` with its boundary exception handling. -/
def threatRun (re : Re) (c : Corpus) : Except String ThreatResults :=
  if c.targetExists then Except.ok (threatResults re c)
  else Except.error "Target path does not exist"

/-- Process exit status of the threat modeler. -/
def threatExitCode (re : Re) (c : Corpus) : Nat :=
  match threatRun re c with
  | Except.ok _ => 0
  | Except.error _ => 1

/-- Finding record of `ble_attack_surface.py` (dataclass `BLEFinding`). -/
structure BLEFinding where
  severity : String
  category : String
  description : String
  file_path : String
  line : Nat
  code_snippet : String
  recommendation : String
deriving DecidableEq, Repr

/-- One entry of the BLE analyzer's line-scan tables:
`(pattern, severity, check, description, recommendation)` (the check name
is unused by the scan body, which fixes the category instead). -/
structure BLERule where
  pattern : String
  severity : String
  check : String
  description : String
  recommendation : String
deriving DecidableEq, Repr

/-- File filter of `BLEAttackSurfaceAnalyzer._scan_dart_files`: exclude
`/test/` paths (normalised) and `.g.dart` paths.  Unlike the auditor it
does not exclude `.freezed.dart`. -/
def bleKeepFile (f : SrcFile) : Bool :=
  !containsSub (replaceBackslash f.path) "/test/" && !containsSub f.path ".g.dart"

/-- Model of `BLEAttackSurfaceAnalyzer._scan_dart_files`. -/
def ble_scan_dart_files (c : Corpus) : List SrcFile :=
  (c.files.filter (fun f => pyEndsWith f.path ".dart")).filter bleKeepFile

/-- The `advertising_patterns` table of `audit_advertising`. -/
def advertising_patterns : List BLERule := [
  ⟨"localName\\s*:", "HIGH", "advertising-name",
   "Device name included in BLE advertising — identity leak to nearby devices",
   "Remove localName from advertising data to prevent tracking"⟩,
  ⟨"manufacturerData\\s*:.*(?:peerId|peer|id|identity)", "CRIT", "advertising-identity",
   "Peer identity data in manufacturer-specific advertising field",
   "Remove identity data from advertising. Use application-layer identity only"⟩,
  ⟨"manufacturerData\\s*:", "MED", "advertising-manufacturer-data",
   "Manufacturer-specific data in advertising — verify no sensitive info",
   "Review manufacturer data content. Minimize to absolute minimum"⟩,
  ⟨"serviceData\\s*:.*(?!.*uuid)", "MED", "advertising-service-data",
   "Service data in advertising — may leak application state",
   "Minimize service data. Prefer discovery via GATT connection"⟩,
  ⟨"(?:startAdvertising|advertise).*(?:displayName|userName|name)", "HIGH", "advertising-display-name",
   "User display name may be broadcast in BLE advertising",
   "Never include user-visible names in advertising data"⟩,
  ⟨"txPowerLevel\\s*:", "LOW", "advertising-tx-power",
   "TX power level in advertising — enables distance estimation by observers",
   "Consider removing TX power from advertising if not needed"⟩]

/-- The `gatt_patterns` table of `audit_gatt_permissions`. -/
def gatt_patterns : List BLERule := [
  ⟨"(?:read|Read)\\s*:\\s*true.*(?:key|secret|token|private)", "CRIT", "gatt-read-secret",
   "GATT characteristic with read permission may expose secrets",
   "Never expose secrets via GATT characteristics"⟩,
  ⟨"(?:write|Write).*(?:WithoutResponse|withoutResponse)", "MED", "gatt-write-no-response",
   "Write-without-response on GATT — no acknowledgment of writes",
   "Consider write-with-response for reliability and flow control"⟩,
  ⟨"notify\\s*:\\s*true", "LOW", "gatt-notify",
   "GATT notification enabled — verify notification data doesn\x27t leak sensitive info",
   "Review what data is sent via notifications"⟩]

/-- The `connection_patterns` table of `audit_connection_security`. -/
def connection_patterns : List BLERule := [
  ⟨"autoConnect\\s*:\\s*true", "MED", "auto-connect",
   "Auto-connect enabled — device will connect to known peripherals automatically",
   "Use manual connect with user intent for better security posture"⟩,
  ⟨"(?:maxCentral|maxConnect).*(?:\\d\x7b2,\x7d)", "MED", "high-max-connections",
   "High max connection limit may allow connection flooding",
   "Limit to 6 (iOS max) or fewer for resource protection"⟩,
  ⟨"timeout.*(?:0|null|none)", "HIGH", "no-connection-timeout",
   "BLE connection without timeout — stale connections hold resources",
   "Set reasonable connection timeout (30-60 seconds)"⟩,
  ⟨"requestMtu", "LOW", "mtu-request",
   "MTU negotiation — verify MTU value doesn\x27t exceed app\x27s handling capacity",
   "Validate negotiated MTU and handle fragments correctly"⟩]

/-- Finding constructor of the BLE line scans: severity and texts from the
rule, a fixed category per scan, snippet `line.strip()[:120]`. -/
def mkBLEFinding (ru : BLERule) (cat : String) (relPath : String) (i : Nat) (line : String) : BLEFinding :=
  ⟨ru.severity, cat, ru.description, relPath, i, pyTake (pyStrip line) 120,
   ru.recommendation⟩

/-- Shared shape of `audit_advertising`, `audit_gatt_permissions` and
`audit_connection_security`: per kept file, per rule, per line (1-based),
a case-insensitive line search with no comment suppression. -/
def bleLineScan (re : Re) (c : Corpus) (rules : List BLERule) (cat : String) : List BLEFinding :=
  (ble_scan_dart_files c).flatMap (fun file =>
    let lines := pySplitLines file.content
    rules.flatMap (fun ru =>
      (lines.enumFrom 1).filterMap (fun p =>
        if re.searchI ru.pattern p.2 then some (mkBLEFinding ru cat file.relPath p.1 p.2)
        else none)))

/-- Model of `BLEAttackSurfaceAnalyzer.audit_advertising`. -/
def audit_advertising (re : Re) (c : Corpus) : List BLEFinding :=
  bleLineScan re c advertising_patterns "advertising"

/-- Model of `BLEAttackSurfaceAnalyzer.audit_gatt_permissions`. -/
def audit_gatt_permissions (re : Re) (c : Corpus) : List BLEFinding :=
  bleLineScan re c gatt_patterns "gatt"

/-- Model of `BLEAttackSurfaceAnalyzer.audit_connection_security`. -/
def audit_connection_security (re : Re) (c : Corpus) : List BLEFinding :=
  bleLineScan re c connection_patterns "connection"

/-- The trigger pattern of `audit_data_validation` (its `handler_patterns`
table holds this single entry). -/
def dvTriggerPattern : String :=
  "onValueReceived|onCharacteristicReceived|onData|onValueChanged"

/-- The `validation_patterns` table of `audit_data_validation` (searched
case-sensitively). -/
def dvValidationPatterns : List String :=
  ["\\.length\\s*[<>=]", "if\\s*\\(\\s*data\\.length", "if\\s*\\(\\s*value\\.length"]

/-- The finding emitted by `audit_data_validation` for an unvalidated
handler at line `i`. -/
def mkDVFinding (relPath : String) (i : Nat) (line : String) : BLEFinding :=
  ⟨"HIGH", "transport",
   "BLE data handler without visible length validation — buffer overflow risk",
   relPath, i, pyTake (pyStrip line) 120,
   "Validate data length before parsing. Check min/max bounds."⟩

/-- The forward window of `audit_data_validation` after 1-based line `i`:
`"\n".join(lines[i:i + 15])`. -/
def dvContext (lines : List String) (i : Nat) : String :=
  pyJoinLines ((lines.drop i).take 15)

/-- Model of `BLEAttackSurfaceAnalyzer.audit_data_validation` on one file:
for each line matching the trigger (case-insensitively), search the next
15 lines for a validation pattern (case-sensitively); emit a finding
anchored at the trigger line exactly when none is found. -/
def audit_data_validation_file (re : Re) (file : SrcFile) : List BLEFinding :=
  let lines := pySplitLines file.content
  (lines.enumFrom 1).filterMap (fun p =>
    if re.searchI dvTriggerPattern p.2 then
      if dvValidationPatterns.any (fun vp => re.search vp (dvContext lines p.1)) then none
      else some (mkDVFinding file.relPath p.1 p.2)
    else none)

/-- Model of `BLEAttackSurfaceAnalyzer.audit_data_validation`. -/
def audit_data_validation (re : Re) (c : Corpus) : List BLEFinding :=
  (ble_scan_dart_files c).flatMap (audit_data_validation_file re)

/-- Config finding of `audit_ble_permissions` for redundant location
permission. -/
def fineLocationFinding (relPath : String) : BLEFinding :=
  ⟨"LOW", "config",
   "Both FINE_LOCATION and BLUETOOTH_SCAN — FINE_LOCATION needed only for Android <12",
   relPath, 0, "ACCESS_FINE_LOCATION + BLUETOOTH_SCAN",
   "Consider conditional permission request based on API level"⟩

/-- Config finding of `audit_ble_permissions` for a missing advertise
permission. -/
def missingAdvertiseFinding (relPath : String) : BLEFinding :=
  ⟨"MED", "config",
   "BLUETOOTH_ADVERTISE permission missing but app uses ble_peripheral",
   relPath, 0, "Missing BLUETOOTH_ADVERTISE",
   "Add BLUETOOTH_ADVERTISE permission for Android 12+"⟩

/-- Config finding of `audit_ble_permissions` for a missing iOS usage
description. -/
def missingNSBluetoothFinding (relPath : String) : BLEFinding :=
  ⟨"MED", "config",
   "Missing NSBluetoothAlwaysUsageDescription — iOS may reject BLE access",
   relPath, 0, "Missing NSBluetoothAlwaysUsageDescription",
   "Add Bluetooth usage description to Info.plist"⟩

/-- Model of `BLEAttackSurfaceAnalyzer.audit_ble_permissions`: manifest
checks (skipping debug/profile manifests) followed by `Info.plist`
checks.  Note this scan applies no test-directory exclusion. -/
def audit_ble_permissions (c : Corpus) : List BLEFinding :=
  ((c.files.filter (fun f => hasFilename f.path "AndroidManifest.xml")).flatMap (fun m =>
    if containsSub m.path "debug" || containsSub m.path "profile" then []
    else
      (if containsSub m.content "ACCESS_FINE_LOCATION" && containsSub m.content "BLUETOOTH_SCAN" then
        [fineLocationFinding m.relPath] else []) ++
      (if !containsSub m.content "BLUETOOTH_ADVERTISE" && containsSub c.targetPath "ble_peripheral" then
        [missingAdvertiseFinding m.relPath] else []))) ++
  ((c.files.filter (fun f => hasFilename f.path "Info.plist")).flatMap (fun p =>
    if !containsSub p.content "NSBluetoothAlwaysUsageDescription" then
      [missingNSBluetoothFinding p.relPath] else []))

/-- The BLE line-based Dart-file findings, in `run` order. -/
def bleLineFindings (re : Re) (c : Corpus) : List BLEFinding :=
  audit_advertising re c ++ audit_gatt_permissions re c ++
  audit_connection_security re c ++ audit_data_validation re c

/-- All raw BLE findings in the order `run` accumulates them
(`extract_ble_config` produces no findings). -/
def bleRawFindings (re : Re) (c : Corpus) : List BLEFinding :=
  bleLineFindings re c ++ audit_ble_permissions c

/-- Dedup key of `BLEAttackSurfaceAnalyzer.generate_report`:
`(f.category, f.description, f.file_path, f.line)`. -/
def bKey (f : BLEFinding) : String × String × String × Nat :=
  (f.category, f.description, f.file_path, f.line)

/-- Report object of `BLEAttackSurfaceAnalyzer.generate_report` (the
extracted `ble_config` dictionary is carried by the report but touched by
no claim, so it is not modelled here). -/
structure BLEReport where
  target : String
  total_findings : Nat
  by_severity : List (String × Nat)
  by_category : List (String × Nat)
  findings : List BLEFinding
deriving DecidableEq, Repr

/-- Model of `BLEAttackSurfaceAnalyzer.generate_report`: stable sort by
severity (same key table as the auditor), dedup on
`(category, description, file_path, line)`, then summarise. -/
def generateBLEReport (target : String) (raw : List BLEFinding) : BLEReport :=
  let sorted := pySortByRank (fun f => sevRank f.severity) raw
  let findings := dedupBy bKey sorted
  ⟨target, findings.length, countBy (fun f => f.severity) findings,
   countBy (fun f => f.category) findings, findings⟩

/-- The BLE analyzer's report for a corpus. -/
def bleReport (re : Re) (c : Corpus) : BLEReport :=
  generateBLEReport c.targetPath (bleRawFindings re c)

/-- Model of `BLEAttackSurfaceAnalyzer.run` with its boundary exception
handling. -/
def bleRun (re : Re) (c : Corpus) : Except String BLEReport :=
  if c.targetExists then Except.ok (bleReport re c)
  else Except.error "Target path does not exist"

/-- Process exit status of the BLE analyzer. -/
def bleExitCode (re : Re) (c : Corpus) : Nat :=
  match bleRun re c with
  | Except.ok _ => 0
  | Except.error _ => 1

/-- Severity order for threats as the specification states it
(critical > high > medium > low); `threat_modeler.py` itself never sorts,
so this key exists only to state the ordering claim. -/
def tRank (s : String) : Nat :=
  if s = "critical" then 0 else if s = "high" then 1 else if s = "medium" then 2
  else if s = "low" then 3 else 99

/-- Trivial `Re` instance: every search misses.  It is used only with
corpora that contain no files (so no pattern is ever consulted), where it
coincides with Python's `re` vacuously. -/
def trivRe : Re :=
  ⟨fun _ _ => false, fun _ _ => false, fun _ _ => []⟩

/-- Concrete `Re` instance realising Python's `re` on the pattern/input
pairs exercised by the concrete corpora below.  Each listed branch renders
its regex by a literal substring test that agrees with `re` on those
inputs (for example `re.search(r"localName\s*:", s, re.IGNORECASE)`
succeeds on every input below exactly when `"localName:"` occurs in it);
every unlisted pattern has no match in any of those inputs, so the
default `false` / `[]` branch is again what `re` returns there. -/
def cexRe : Re where
  searchI := fun pat s =>
    if pat = "\\bRandom\\(\\)" then containsSub s "Random()"
    else if pat = "localName\\s*:" then containsSub s "localName:"
    else if pat = "onValueReceived|onCharacteristicReceived|onData|onValueChanged" then
      containsSub s "onValueReceived"
    else false
  search := fun pat s =>
    if pat = "\\.length\\s*[<>=]" then containsSub s ".length <"
    else if pat = "if\\s*\\(\\s*data\\.length" then containsSub s "if (data.length"
    else if pat = "if\\s*\\(\\s*value\\.length" then containsSub s "if (value.length"
    else false
  finditerI := fun pat s =>
    if pat = "Random\\(\\)" then litOccs "Random()" s
    else []

/-- Corpus with an existing, empty target tree. -/
def corpusEmpty : Corpus :=
  ⟨"lib", true, [], none, none⟩

/-- Corpus with a missing target path. -/
def corpusMissing : Corpus :=
  ⟨"nope", false, [], none, none⟩

/-- A Dart file whose single line matches the insecure-RNG pattern twice. -/
def fileRandomTwice : SrcFile :=
  ⟨"lib/a.dart", "a.dart", "Random() Random()"⟩

/-- Corpus holding `fileRandomTwice`. -/
def corpusRandomTwice : Corpus :=
  ⟨"lib", true, [fileRandomTwice], none, none⟩

/-- A Dart file under a `/test/` directory whose content matches the
insecure-RNG risk pattern. -/
def fileUnderTest : SrcFile :=
  ⟨"lib/test/a.dart", "test/a.dart", "Random()"⟩

/-- Corpus holding only the test-directory file. -/
def corpusTestDir : Corpus :=
  ⟨"lib", true, [fileUnderTest], none, none⟩

/-- A Dart file whose single line is a comment matching the BLE
advertising-name pattern. -/
def fileCommentLine : SrcFile :=
  ⟨"lib/b.dart", "b.dart", "// localName: x"⟩

/-- Corpus holding only the comment-line file. -/
def corpusCommentLine : Corpus :=
  ⟨"lib", true, [fileCommentLine], none, none⟩

/-- A 128-character line: 120 spaces of indentation before a match of the
insecure-RNG pattern. -/
def longIndentedLine : String :=
  ⟨List.replicate 120 ' ' ++ "Random()".data⟩

/-- A Dart file whose single line is `longIndentedLine`. -/
def fileLongLine : SrcFile :=
  ⟨"lib/a.dart", "a.dart", longIndentedLine⟩

/-- Corpus holding only the long-line file. -/
def corpusLongLine : Corpus :=
  ⟨"lib", true, [fileLongLine], none, none⟩

/-- Corpus with no source files but a `pubspec.yaml` whose content is the
five characters `http:`. -/
def corpusHttpPubspec : Corpus :=
  ⟨"lib", true, [], some "http:", none⟩

/-- A Dart file with a BLE data-handler trigger on line 1 and no
validation pattern in the following window. -/
def fileHandlerNoValidation : SrcFile :=
  ⟨"lib/h.dart", "h.dart", "onValueReceived\nfoo"⟩

/-- A Dart file with a BLE data-handler trigger on line 1 and a length
validation on line 2 (inside the 15-line window). -/
def fileHandlerValidated : SrcFile :=
  ⟨"lib/h.dart", "h.dart", "onValueReceived\nif (data.length < 3) return;"⟩

/-- Every `(check, severity)` pair a raw auditor finding can carry: the
tagged rule tables plus the four hardcoded plist/pubspec checks.  The
check name determines the severity here, which is what makes
"first kept in discovery order" survive the sort-before-dedup order of
`generate_report`. -/
def auditorCheckSevPairs : List (String × String) :=
  (allChecks ++ PERMISSION_CHECKS_ANDROID).map (fun ch => (ch.check, ch.severity)) ++
  [("ios-background-modes", "LOW"), ("http-dependency", "LOW"),
   ("missing-sodium", "HIGH"), ("missing-secure-storage", "HIGH")]

/-- Every `(description, severity)` pair a raw BLE finding can carry: the
three line-scan tables plus the data-validation finding and the three
config findings.  The description (a component of the BLE dedup key)
determines the severity. -/
def bleDescSevPairs : List (String × String) :=
  (advertising_patterns ++ gatt_patterns ++ connection_patterns).map
    (fun ru => (ru.description, ru.severity)) ++
  [("BLE data handler without visible length validation — buffer overflow risk", "HIGH"),
   ("Both FINE_LOCATION and BLUETOOTH_SCAN — FINE_LOCATION needed only for Android <12", "LOW"),
   ("BLUETOOTH_ADVERTISE permission missing but app uses ble_peripheral", "MED"),
   ("Missing NSBluetoothAlwaysUsageDescription — iOS may reject BLE access", "MED")]

theorem pairwise_of_mem {α : Type} {R : α → α → Prop} :
    ∀ {l : List α}, (∀ a ∈ l, ∀ b ∈ l, R a b) → l.Pairwise R := by
  intro l
  induction l with
  | nil => intro _; exact List.Pairwise.nil
  | cons a l ih =>
    intro h
    refine List.Pairwise.cons (fun b hb => h a (by simp) b (by simp [hb])) (ih ?_)
    intro x hx y hy
    exact h x (by simp [hx]) y (by simp [hy])

theorem mem_pySortByRank {α : Type} (rank : α → Nat) {x : α} {l : List α}
    (h : x ∈ pySortByRank rank l) : x ∈ l := by
  simp only [pySortByRank, List.mem_flatMap, List.mem_filter] at h
  obtain ⟨r, _, hx, _⟩ := h
  exact hx

theorem pairwise_buckets {α : Type} (rank : α → Nat) (l : List α) :
    ∀ (rs : List Nat), rs.Pairwise (fun a b => a ≤ b) →
    (rs.flatMap (fun r => l.filter (fun x => rank x == r))).Pairwise
      (fun a b => rank a ≤ rank b) := by
  intro rs hrs
  induction rs with
  | nil => simp
  | cons r rs ih =>
    rw [List.flatMap_cons]
    rw [List.pairwise_cons] at hrs
    refine List.pairwise_append.mpr ⟨?_, ih hrs.2, ?_⟩
    · refine pairwise_of_mem ?_
      intro a ha b hb
      rw [List.mem_filter] at ha hb
      have h1 : rank a = r := by simpa using ha.2
      have h2 : rank b = r := by simpa using hb.2
      omega
    · intro a ha b hb
      rw [List.mem_filter] at ha
      have h1 : rank a = r := by simpa using ha.2
      rw [List.mem_flatMap] at hb
      obtain ⟨r', hr', hb⟩ := hb
      rw [List.mem_filter] at hb
      have h2 : rank b = r' := by simpa using hb.2
      have h3 := hrs.1 r' hr'
      omega

theorem pairwise_pySortByRank {α : Type} (rank : α → Nat) (l : List α) :
    (pySortByRank rank l).Pairwise (fun a b => rank a ≤ rank b) :=
  pairwise_buckets rank l sevRanks (by decide)

theorem dedupGo_sublist {α κ : Type} [DecidableEq κ] (key : α → κ) :
    ∀ (l : List α) (seen : List κ), List.Sublist (dedupGo key seen l) l := by
  intro l
  induction l with
  | nil => intro seen; simp [dedupGo]
  | cons x xs ih =>
    intro seen
    simp only [dedupGo]
    by_cases h : key x ∈ seen
    · rw [if_pos h]
      exact List.Sublist.cons x (ih seen)
    · rw [if_neg h]
      exact List.Sublist.cons₂ x (ih _)

theorem dedupBy_sublist {α κ : Type} [DecidableEq κ] (key : α → κ) (l : List α) :
    List.Sublist (dedupBy key l) l :=
  dedupGo_sublist key l []

theorem dedupGo_key_not_seen {α κ : Type} [DecidableEq κ] (key : α → κ) :
    ∀ (l : List α) (seen : List κ) (x : α), x ∈ dedupGo key seen l → key x ∉ seen := by
  intro l
  induction l with
  | nil => intro seen x h; simp [dedupGo] at h
  | cons a as ih =>
    intro seen x h
    simp only [dedupGo] at h
    by_cases ha : key a ∈ seen
    · rw [if_pos ha] at h
      exact ih seen x h
    · rw [if_neg ha] at h
      rcases List.mem_cons.mp h with h1 | h1
      · subst h1; exact ha
      · intro hc
        exact ih _ x h1 (List.mem_cons_of_mem _ hc)

theorem dedupGo_pairwise {α κ : Type} [DecidableEq κ] (key : α → κ) :
    ∀ (l : List α) (seen : List κ),
    (dedupGo key seen l).Pairwise (fun a b => key a ≠ key b) := by
  intro l
  induction l with
  | nil => intro seen; simp [dedupGo]
  | cons a as ih =>
    intro seen
    simp only [dedupGo]
    by_cases ha : key a ∈ seen
    · rw [if_pos ha]; exact ih seen
    · rw [if_neg ha]
      refine List.Pairwise.cons ?_ (ih _)
      intro b hb hc
      exact dedupGo_key_not_seen key as (key a :: seen) b hb (List.mem_cons.mpr (Or.inl hc.symm))

theorem dedupBy_pairwise {α κ : Type} [DecidableEq κ] (key : α → κ) (l : List α) :
    (dedupBy key l).Pairwise (fun a b => key a ≠ key b) :=
  dedupGo_pairwise key l []

theorem find?_append_cases {α : Type} (p : α → Bool) (l1 l2 : List α) :
    (l1 ++ l2).find? p = match l1.find? p with
      | some a => some a
      | none => l2.find? p := by
  induction l1 with
  | nil => simp
  | cons a l ih =>
    by_cases h : p a
    · simp [List.find?_cons_of_pos, h]
    · simp [List.find?_cons_of_neg, h, ih]

theorem find?_filter_eq {α : Type} (p q : α → Bool) (l : List α) :
    (l.filter q).find? p = l.find? (fun x => q x && p x) := by
  induction l with
  | nil => simp
  | cons a l ih =>
    by_cases hq : q a
    · by_cases hp : p a
      · simp [List.filter_cons, hq, List.find?_cons_of_pos, hp]
      · simp [List.filter_cons, hq, List.find?_cons_of_neg, hp, ih]
    · simp [List.filter_cons, hq, ih]

theorem find?_of_imp_mem {α : Type} (p q : α → Bool) :
    ∀ (l : List α), (∀ x ∈ l, p x = true → q x = true) →
    l.find? (fun x => q x && p x) = l.find? p := by
  intro l
  induction l with
  | nil => intro _; rfl
  | cons a l ih =>
    intro h
    by_cases hp : p a
    · have hq := h a (by simp) hp
      simp [List.find?_cons_of_pos, hp, hq]
    · have : (q a && p a) = false := by simp [hp]
      rw [List.find?_cons_of_neg _ (by simp [this]), List.find?_cons_of_neg _ (by simp [hp])]
      exact ih (fun x hx => h x (by simp [hx]))

theorem buckets_find? {α κ : Type} [DecidableEq κ] (rank : α → Nat) (key : α → κ)
    (l : List α) (k : κ) (a : α)
    (hfind : l.find? (fun x => decide (key x = k)) = some a)
    (hdet : ∀ x ∈ l, key x = k → rank x = rank a) :
    ∀ rs : List Nat, rank a ∈ rs →
    (rs.flatMap (fun r => l.filter (fun x => rank x == r))).find?
      (fun x => decide (key x = k)) = some a := by
  intro rs
  induction rs with
  | nil => intro h; simp at h
  | cons r rs ih =>
    intro hmem
    rw [List.flatMap_cons, find?_append_cases]
    by_cases hr : r = rank a
    · have hbucket : (l.filter (fun x => rank x == r)).find? (fun x => decide (key x = k)) = some a := by
        rw [find?_filter_eq, find?_of_imp_mem]
        · exact hfind
        · intro x hx hpx
          have hxk : key x = k := of_decide_eq_true hpx
          have hrx := hdet x hx hxk
          simp [hrx, hr]
      rw [hbucket]
    · have hnone : (l.filter (fun x => rank x == r)).find? (fun x => decide (key x = k)) = none := by
        rw [List.find?_eq_none]
        intro x hx hpx
        rw [List.mem_filter] at hx
        have h1 : rank x = r := by simpa using hx.2
        have h2 : key x = k := of_decide_eq_true hpx
        have h3 := hdet x hx.1 h2
        omega
      rw [hnone]
      refine ih ?_
      rcases List.mem_cons.mp hmem with h1 | h1
      · omega
      · exact h1

theorem pySortByRank_find? {α κ : Type} [DecidableEq κ] (rank : α → Nat) (key : α → κ)
    (l : List α) (k : κ)
    (hcod : ∀ x ∈ l, rank x ∈ sevRanks)
    (hdet : ∀ a b, a ∈ l → b ∈ l → key a = key b → rank a = rank b) :
    (pySortByRank rank l).find? (fun x => decide (key x = k)) =
    l.find? (fun x => decide (key x = k)) := by
  cases hfind : l.find? (fun x => decide (key x = k)) with
  | none =>
    rw [List.find?_eq_none] at hfind ⊢
    intro x hx
    exact hfind x (mem_pySortByRank rank hx)
  | some a =>
    have ha_mem := List.mem_of_find?_eq_some hfind
    have ha_key : key a = k := by simpa using List.find?_some hfind
    exact buckets_find? rank key l k a hfind
      (fun x hx hxk => hdet x a hx ha_mem (by rw [hxk, ha_key]))
      sevRanks (hcod a ha_mem)

theorem dedupGo_find? {α κ : Type} [DecidableEq κ] (key : α → κ) (k : κ) :
    ∀ (l : List α) (seen : List κ), k ∉ seen →
    (dedupGo key seen l).find? (fun x => decide (key x = k)) =
    l.find? (fun x => decide (key x = k)) := by
  intro l
  induction l with
  | nil => intro seen _; simp [dedupGo]
  | cons a as ih =>
    intro seen hk
    simp only [dedupGo]
    by_cases ha : key a ∈ seen
    · rw [if_pos ha]
      have hne : ¬ (key a = k) := fun h => hk (h ▸ ha)
      rw [List.find?_cons_of_neg _ (by simpa using hne)]
      exact ih seen hk
    · rw [if_neg ha]
      by_cases hak : key a = k
      · rw [List.find?_cons_of_pos _ (by simpa using hak),
            List.find?_cons_of_pos _ (by simpa using hak)]
      · rw [List.find?_cons_of_neg _ (by simpa using hak),
            List.find?_cons_of_neg _ (by simpa using hak)]
        refine ih _ ?_
        intro hc
        rcases List.mem_cons.mp hc with h1 | h1
        · exact hak h1.symm
        · exact hk h1

theorem dedupBy_find? {α κ : Type} [DecidableEq κ] (key : α → κ) (k : κ) (l : List α) :
    (dedupBy key l).find? (fun x => decide (key x = k)) =
    l.find? (fun x => decide (key x = k)) :=
  dedupGo_find? key k l [] (by simp)

theorem sumCounts_bumpCount (m : List (String × Nat)) (k : String) :
    sumCounts (bumpCount m k) = sumCounts m + 1 := by
  induction m with
  | nil => simp [bumpCount, sumCounts]
  | cons p rest ih =>
    obtain ⟨k', v⟩ := p
    simp only [bumpCount]
    by_cases h : k' = k
    · rw [if_pos h]
      simp [sumCounts]
      omega
    · rw [if_neg h]
      simp only [sumCounts, List.map_cons, List.sum_cons] at ih ⊢
      omega

theorem sumCounts_countBy {α : Type} (f : α → String) (l : List α) :
    sumCounts (countBy f l) = l.length := by
  suffices h : ∀ (l : List α) (m : List (String × Nat)),
      sumCounts (l.foldl (fun m x => bumpCount m (f x)) m) = sumCounts m + l.length by
    have h2 := h l []
    simp only [countBy]
    rw [h2]
    simp [sumCounts]
  intro l
  induction l with
  | nil => intro m; simp
  | cons a as ih =>
    intro m
    simp only [List.foldl_cons]
    rw [ih, sumCounts_bumpCount]
    simp only [List.length_cons]
    omega

theorem sevRank_mem_sevRanks (s : String) : sevRank s ∈ sevRanks := by
  simp only [sevRank, sevRanks]
  split_ifs <;> simp

theorem mem_enumFrom_facts {β : Type} :
    ∀ (ls : List β) (n : Nat) (q : Nat × β), q ∈ ls.enumFrom n →
    n ≤ q.1 ∧ ls.get? (q.1 - n) = some q.2 := by
  intro ls
  induction ls with
  | nil => intro n q h; simp [List.enumFrom] at h
  | cons a as ih =>
    intro n q h
    rw [List.enumFrom_cons] at h
    rcases List.mem_cons.mp h with h1 | h1
    · subst h1; simp
    · obtain ⟨h2, h3⟩ := ih (n + 1) q h1
      refine ⟨by omega, ?_⟩
      have hstep : q.1 - n = (q.1 - (n + 1)) + 1 := by omega
      rw [hstep]
      simpa using h3

theorem isPrefixOf_take_imp (p : List Char) :
    ∀ (xs : List Char) (n : Nat), p.isPrefixOf (xs.take n) = true → p.isPrefixOf xs = true := by
  induction p with
  | nil => intro xs n _; simp [List.isPrefixOf]
  | cons c p ih =>
    intro xs n h
    cases xs with
    | nil => simp [List.take_nil, List.isPrefixOf] at h
    | cons b xs =>
      cases n with
      | zero => simp [List.isPrefixOf] at h
      | succ m =>
        rw [List.take_succ_cons] at h
        simp only [List.isPrefixOf, Bool.and_eq_true] at h ⊢
        exact ⟨h.1, ih xs m h.2⟩

theorem dv_line_lb (g : Nat × String → Option BLEFinding)
    (hg : ∀ p f, g p = some f → f.line = p.1) :
    ∀ (ls : List String) (n : Nat) (f : BLEFinding),
    f ∈ (ls.enumFrom n).filterMap g → n ≤ f.line := by
  intro ls
  induction ls with
  | nil => intro n f h; simp [List.enumFrom] at h
  | cons a as ih =>
    intro n f h
    rw [List.enumFrom_cons, List.filterMap_cons] at h
    cases hga : g (n, a) with
    | none =>
      rw [hga] at h
      have h2 := ih (n + 1) f h
      omega
    | some b =>
      rw [hga] at h
      rcases List.mem_cons.mp h with h1 | h1
      · subst h1
        have h2 := hg (n, a) f hga
        omega
      · have h2 := ih (n + 1) f h1
        omega

theorem countP_line_enumFrom (g : Nat × String → Option BLEFinding)
    (hg : ∀ p f, g p = some f → f.line = p.1) :
    ∀ (ls : List String) (start i : Nat), start ≤ i →
    ((ls.enumFrom start).filterMap g).countP (fun f => f.line == i) =
    ((ls.get? (i - start)).bind (fun s => g (i, s))).toList.length := by
  intro ls
  induction ls with
  | nil => intro start i _; simp [List.enumFrom]
  | cons a as ih =>
    intro start i hle
    rw [List.enumFrom_cons, List.filterMap_cons]
    by_cases heq : start = i
    · subst heq
      have hrest : ((as.enumFrom (start + 1)).filterMap g).countP (fun f => f.line == start) = 0 := by
        rw [List.countP_eq_zero]
        intro f hf
        have h2 := dv_line_lb g hg as (start + 1) f hf
        simp only [beq_iff_eq]
        omega
      cases hga : g (start, a) with
      | none => simp [hga, hrest]
      | some b =>
        have hb : b.line = start := hg (start, a) b hga
        rw [List.countP_cons]
        simp [hga, hrest, hb]
    · have hlt : start + 1 ≤ i := by omega
      have hstep : i - start = (i - (start + 1)) + 1 := by omega
      cases hga : g (start, a) with
      | none =>
        rw [ih (start + 1) i hlt, hstep]
        simp
      | some b =>
        have hb : b.line = start := hg (start, a) b hga
        rw [List.countP_cons, ih (start + 1) i hlt, hstep]
        have hne : (b.line == i) = false := by
          simp only [beq_eq_false_iff_ne, ne_eq, hb]
          omega
        simp [hne]

theorem iteNoneSome {β : Type} (A B : Bool) (e f : β) :
    ((if A then none else if B then (some e : Option β) else none) = some f) ↔
    (A = false ∧ B = true ∧ e = f) := by
  cases A <;> cases B <;> simp

theorem iteSome {β : Type} (B : Bool) (e f : β) :
    ((if B then (some e : Option β) else none) = some f) ↔ (B = true ∧ e = f) := by
  cases B <;> simp

theorem mem_audit_dart_files {re : Re} {c : Corpus} {filt : Option String} {f : Finding}
    (h : f ∈ audit_dart_files re c filt) :
    ∃ file ∈ c.files, pyEndsWith file.path ".dart" = true ∧ auditorKeepFile file = true ∧
    ∃ ch ∈ getChecks filt, ∃ p ∈ (pySplitLines file.content).enumFrom 1,
      isCommentLine p.2 = false ∧ re.searchI ch.pattern p.2 = true ∧
      f = mkAuditFinding ch file.relPath p.1 p.2 := by
  simp only [audit_dart_files, List.mem_flatMap, List.mem_filterMap, List.mem_filter] at h
  obtain ⟨file, ⟨⟨hfile, hdart⟩, hkeep⟩, ch, hch, p, hp, hsome⟩ := h
  rw [iteNoneSome] at hsome
  exact ⟨file, hfile, hdart, hkeep, ch, hch, p, hp, hsome.1, hsome.2.1, hsome.2.2.symm⟩

theorem mem_audit_android_manifest {re : Re} {c : Corpus} {filt : Option String} {f : Finding}
    (h : f ∈ audit_android_manifest re c filt) :
    ∃ ch ∈ PERMISSION_CHECKS_ANDROID, ∃ rel i line, f = mkAuditFinding ch rel i line := by
  simp only [audit_android_manifest] at h
  split at h
  · simp at h
  · simp only [List.mem_flatMap, List.mem_filterMap] at h
    obtain ⟨m, _, ch, hch, p, _, hsome⟩ := h
    rw [iteSome] at hsome
    exact ⟨ch, hch, m.relPath, p.1, p.2, hsome.2.symm⟩

theorem mem_audit_ios_plist {c : Corpus} {filt : Option String} {f : Finding}
    (h : f ∈ audit_ios_plist c filt) :
    ∃ rel, f = iosBackgroundModesFinding rel := by
  simp only [audit_ios_plist] at h
  split at h
  · simp at h
  · simp only [List.mem_filterMap] at h
    obtain ⟨p, _, hsome⟩ := h
    rw [iteSome] at hsome
    exact ⟨p.relPath, hsome.2.symm⟩

theorem mem_audit_pubspec {c : Corpus} {filt : Option String} {f : Finding}
    (h : f ∈ audit_pubspec c filt) :
    f = httpDependencyFinding ∨ f = missingSodiumFinding ∨ f = missingSecureStorageFinding := by
  simp only [audit_pubspec] at h
  split at h
  · simp at h
  · split at h
    · simp at h
    · rcases List.mem_append.mp h with h1 | h1
      · rcases List.mem_append.mp h1 with h2 | h2
        · split at h2 <;> simp at h2
          exact Or.inl h2
        · split at h2 <;> simp at h2
          exact Or.inr (Or.inl h2)
      · split at h1 <;> simp at h1
        exact Or.inr (Or.inr h1)

theorem mem_ble_scan_dart_files {c : Corpus} {file : SrcFile}
    (h : file ∈ ble_scan_dart_files c) :
    file ∈ c.files ∧ pyEndsWith file.path ".dart" = true ∧ bleKeepFile file = true := by
  simp only [ble_scan_dart_files, List.mem_filter] at h
  exact ⟨h.1.1, h.1.2, h.2⟩

theorem mem_bleLineScan {re : Re} {c : Corpus} {rules : List BLERule} {cat : String} {f : BLEFinding}
    (h : f ∈ bleLineScan re c rules cat) :
    ∃ file ∈ ble_scan_dart_files c, ∃ ru ∈ rules, ∃ p ∈ (pySplitLines file.content).enumFrom 1,
      re.searchI ru.pattern p.2 = true ∧ f = mkBLEFinding ru cat file.relPath p.1 p.2 := by
  simp only [bleLineScan, List.mem_flatMap, List.mem_filterMap] at h
  obtain ⟨file, hfile, ru, hru, p, hp, hsome⟩ := h
  rw [iteSome] at hsome
  exact ⟨file, hfile, ru, hru, p, hp, hsome.1, hsome.2.symm⟩

theorem mem_audit_data_validation_file {re : Re} {file : SrcFile} {f : BLEFinding}
    (h : f ∈ audit_data_validation_file re file) :
    ∃ p ∈ (pySplitLines file.content).enumFrom 1,
      re.searchI dvTriggerPattern p.2 = true ∧
      f = mkDVFinding file.relPath p.1 p.2 := by
  simp only [audit_data_validation_file, List.mem_filterMap] at h
  obtain ⟨p, hp, hsome⟩ := h
  by_cases ht : re.searchI dvTriggerPattern p.2
  · rw [if_pos ht] at hsome
    by_cases hv : dvValidationPatterns.any (fun vp => re.search vp (dvContext (pySplitLines file.content) p.1))
    · rw [if_pos hv] at hsome
      simp at hsome
    · rw [if_neg hv] at hsome
      simp only [Option.some.injEq] at hsome
      exact ⟨p, hp, ht, hsome.symm⟩
  · rw [if_neg ht] at hsome
    simp at hsome

theorem mem_audit_data_validation {re : Re} {c : Corpus} {f : BLEFinding}
    (h : f ∈ audit_data_validation re c) :
    ∃ file ∈ ble_scan_dart_files c, ∃ p ∈ (pySplitLines file.content).enumFrom 1,
      re.searchI dvTriggerPattern p.2 = true ∧
      f = mkDVFinding file.relPath p.1 p.2 := by
  simp only [audit_data_validation, List.mem_flatMap] at h
  obtain ⟨file, hfile, hmem⟩ := h
  obtain ⟨p, hp, h1, h2⟩ := mem_audit_data_validation_file hmem
  exact ⟨file, hfile, p, hp, h1, h2⟩

theorem mem_audit_ble_permissions {c : Corpus} {f : BLEFinding}
    (h : f ∈ audit_ble_permissions c) :
    ∃ rel, f = fineLocationFinding rel ∨ f = missingAdvertiseFinding rel ∨
      f = missingNSBluetoothFinding rel := by
  simp only [audit_ble_permissions] at h
  rcases List.mem_append.mp h with h1 | h1
  · simp only [List.mem_flatMap] at h1
    obtain ⟨m, _, hmem⟩ := h1
    split at hmem
    · simp at hmem
    · rcases List.mem_append.mp hmem with h2 | h2
      · split at h2 <;> simp at h2
        exact ⟨m.relPath, Or.inl h2⟩
      · split at h2 <;> simp at h2
        exact ⟨m.relPath, Or.inr (Or.inl h2)⟩
  · simp only [List.mem_flatMap] at h1
    obtain ⟨p, _, hmem⟩ := h1
    split at hmem <;> simp at hmem
    exact ⟨p.relPath, Or.inr (Or.inr hmem)⟩

theorem mem_auditorReport_findings {re : Re} {c : Corpus} {filt : Option String} {f : Finding}
    (h : f ∈ (auditorReport re c filt).findings) : f ∈ auditorRawFindings re c filt := by
  simp only [auditorReport, generateAuditReport] at h
  exact mem_pySortByRank _ ((dedupBy_sublist fKey _).subset h)

theorem mem_bleReport_findings {re : Re} {c : Corpus} {f : BLEFinding}
    (h : f ∈ (bleReport re c).findings) : f ∈ bleRawFindings re c := by
  simp only [bleReport, generateBLEReport] at h
  exact mem_pySortByRank _ ((dedupBy_sublist bKey _).subset h)

theorem getChecks_subset {filt : Option String} {ch : Check}
    (h : ch ∈ getChecks filt) : ch ∈ allChecks := by
  cases filt with
  | none => exact h
  | some f => exact (List.mem_filter.mp h).1

theorem auditor_check_sev {re : Re} {c : Corpus} {filt : Option String} {f : Finding}
    (h : f ∈ auditorRawFindings re c filt) :
    (f.check, f.severity) ∈ auditorCheckSevPairs := by
  simp only [auditorRawFindings] at h
  rcases List.mem_append.mp h with h1 | hpub
  · rcases List.mem_append.mp h1 with h2 | hplist
    · rcases List.mem_append.mp h2 with hdart | hman
      · obtain ⟨file, _, _, _, ch, hch, p, _, _, _, hf⟩ := mem_audit_dart_files hdart
        subst hf
        exact List.mem_append_left _
          (List.mem_map_of_mem _ (List.mem_append_left _ (getChecks_subset hch)))
      · obtain ⟨ch, hch, rel, i, line, hf⟩ := mem_audit_android_manifest hman
        subst hf
        exact List.mem_append_left _ (List.mem_map_of_mem _ (List.mem_append_right _ hch))
    · obtain ⟨rel, hf⟩ := mem_audit_ios_plist hplist
      subst hf
      show ("ios-background-modes", "LOW") ∈ auditorCheckSevPairs
      decide
  · rcases mem_audit_pubspec hpub with h2 | h2 | h2 <;> subst h2
    · show ("http-dependency", "LOW") ∈ auditorCheckSevPairs
      decide
    · show ("missing-sodium", "HIGH") ∈ auditorCheckSevPairs
      decide
    · show ("missing-secure-storage", "HIGH") ∈ auditorCheckSevPairs
      decide

theorem auditorPairsFunctional :
    ∀ p ∈ auditorCheckSevPairs, ∀ q ∈ auditorCheckSevPairs, p.1 = q.1 → p.2 = q.2 := by
  decide

theorem auditor_sev_det {re : Re} {c : Corpus} {filt : Option String} {a b : Finding}
    (ha : a ∈ auditorRawFindings re c filt) (hb : b ∈ auditorRawFindings re c filt)
    (hk : fKey a = fKey b) : sevRank a.severity = sevRank b.severity := by
  have hchk : a.check = b.check := congrArg Prod.fst hk
  have h2 := auditorPairsFunctional _ (auditor_check_sev ha) _ (auditor_check_sev hb) hchk
  have h3 : a.severity = b.severity := h2
  rw [h3]

theorem ble_desc_sev {re : Re} {c : Corpus} {f : BLEFinding}
    (h : f ∈ bleRawFindings re c) :
    (f.description, f.severity) ∈ bleDescSevPairs := by
  simp only [bleRawFindings, bleLineFindings, audit_advertising, audit_gatt_permissions,
    audit_connection_security] at h
  rcases List.mem_append.mp h with h1 | hperm
  · rcases List.mem_append.mp h1 with h2 | hdv
    · rcases List.mem_append.mp h2 with h3 | hconn
      · rcases List.mem_append.mp h3 with hadv | hgatt
        · obtain ⟨file, _, ru, hru, p, _, _, hf⟩ := mem_bleLineScan hadv
          subst hf
          exact List.mem_append_left _ (List.mem_map_of_mem _ (List.mem_append_left _
            (List.mem_append_left _ hru)))
        · obtain ⟨file, _, ru, hru, p, _, _, hf⟩ := mem_bleLineScan hgatt
          subst hf
          exact List.mem_append_left _ (List.mem_map_of_mem _ (List.mem_append_left _
            (List.mem_append_right _ hru)))
      · obtain ⟨file, _, ru, hru, p, _, _, hf⟩ := mem_bleLineScan hconn
        subst hf
        exact List.mem_append_left _
          (List.mem_map_of_mem _ (List.mem_append_right _ hru))
    · obtain ⟨file, _, p, _, _, hf⟩ := mem_audit_data_validation hdv
      subst hf
      show ("BLE data handler without visible length validation — buffer overflow risk",
        "HIGH") ∈ bleDescSevPairs
      decide
  · obtain ⟨rel, h2⟩ := mem_audit_ble_permissions hperm
    rcases h2 with h2 | h2 | h2 <;> subst h2
    · show ("Both FINE_LOCATION and BLUETOOTH_SCAN — FINE_LOCATION needed only for Android <12",
        "LOW") ∈ bleDescSevPairs
      decide
    · show ("BLUETOOTH_ADVERTISE permission missing but app uses ble_peripheral",
        "MED") ∈ bleDescSevPairs
      decide
    · show ("Missing NSBluetoothAlwaysUsageDescription — iOS may reject BLE access",
        "MED") ∈ bleDescSevPairs
      decide

theorem blePairsFunctional :
    ∀ p ∈ bleDescSevPairs, ∀ q ∈ bleDescSevPairs, p.1 = q.1 → p.2 = q.2 := by
  decide

theorem ble_sev_det {re : Re} {c : Corpus} {a b : BLEFinding}
    (ha : a ∈ bleRawFindings re c) (hb : b ∈ bleRawFindings re c)
    (hk : bKey a = bKey b) : sevRank a.severity = sevRank b.severity := by
  have hd : a.description = b.description := congrArg (fun q => q.2.1) hk
  have h2 := blePairsFunctional _ (ble_desc_sev ha) _ (ble_desc_sev hb) hd
  have h3 : a.severity = b.severity := h2
  rw [h3]

/-- C9: each analyzer's run fails (non-zero exit) exactly when the target
path does not exist, and a completed scan exits zero regardless of how
many findings were produced.  The pure embedding has no unhandled internal
errors, so the missing-target validation is the only failure source, as
the claim's precondition clause states. -/
theorem C9_exit_status : ∀ (re : Re) (c : Corpus) (filt : Option String),
    auditorExitCode re c filt = (if c.targetExists then 0 else 1) ∧
    threatExitCode re c = (if c.targetExists then 0 else 1) ∧
    bleExitCode re c = (if c.targetExists then 0 else 1) := by
  intro re c filt
  cases h : c.targetExists <;>
    simp [auditorExitCode, auditorRun, threatExitCode, threatRun, bleExitCode, bleRun, h]

/-- C10: in every generated report the summary counts are mutually
consistent: the `by_severity` values sum to the length of the reported
findings (or threats) sequence, which equals the reported total, and the
`by_check` / `by_category` values sum to the same total. -/
theorem C10_summary_consistency : ∀ (re : Re) (c : Corpus) (filt : Option String),
    sumCounts (auditorReport re c filt).by_severity = (auditorReport re c filt).findings.length ∧
    sumCounts (auditorReport re c filt).by_severity = (auditorReport re c filt).total_findings ∧
    sumCounts (auditorReport re c filt).by_check = (auditorReport re c filt).total_findings ∧
    sumCounts (threatResults re c).by_severity = (threatResults re c).threats.length ∧
    sumCounts (threatResults re c).by_severity = (threatResults re c).total_threats ∧
    sumCounts (threatResults re c).by_category = (threatResults re c).total_threats ∧
    sumCounts (bleReport re c).by_severity = (bleReport re c).findings.length ∧
    sumCounts (bleReport re c).by_severity = (bleReport re c).total_findings ∧
    sumCounts (bleReport re c).by_category = (bleReport re c).total_findings := by
  intro re c filt
  refine ⟨?_, ?_, ?_, ?_, ?_, ?_, ?_, ?_, ?_⟩ <;> exact sumCounts_countBy _ _

/-- C3: when the component detector finds no components, the threat
catalog composer's output is the full union of every ThreatModel's
threats followed by the custom threats, so in particular it contains
every catalog threat. -/
theorem C3_conservative_fallback : ∀ (re : Re) (c : Corpus),
    scan_components re c = [] →
    (threatResults re c).threats = allCatalogThreats ++ check_custom_threats re c ∧
    ∀ t ∈ allCatalogThreats, t ∈ (threatResults re c).threats := by
  intro re c h
  have h1 : (threatResults re c).threats = allCatalogThreats ++ check_custom_threats re c := by
    show apply_threat_catalog (scan_components re c) ++ check_custom_threats re c = _
    rw [h]
    simp [apply_threat_catalog]
  exact ⟨h1, fun t ht => h1 ▸ List.mem_append_left _ ht⟩

/-- Witness for C3 at a concrete empty corpus: the hypothesis
`scan_components = []` holds there and the conclusion evaluates. -/
theorem C3_conservative_fallback_witness :
    (threatResults trivRe corpusEmpty).threats =
      allCatalogThreats ++ check_custom_threats trivRe corpusEmpty :=
  (C3_conservative_fallback trivRe corpusEmpty (by decide)).1

/-- C1 (amended): the security auditor's and the BLE analyzer's reported
findings sequences are ordered by severity (CRIT before HIGH before MED
before LOW, i.e. the severity key is non-decreasing along the list).  The
threat modeler's threats sequence is not sorted — see the
counterexample — so the claim holds for the two findings reports only. -/
theorem C1_severity_ordering_amended : ∀ (re : Re) (c : Corpus) (filt : Option String),
    ((auditorReport re c filt).findings.Pairwise
      (fun a b => sevRank a.severity ≤ sevRank b.severity)) ∧
    ((bleReport re c).findings.Pairwise
      (fun a b => sevRank a.severity ≤ sevRank b.severity)) := by
  intro re c filt
  constructor
  · exact (pairwise_pySortByRank (fun f : Finding => sevRank f.severity)
      (auditorRawFindings re c filt)).sublist (dedupBy_sublist fKey _)
  · exact (pairwise_pySortByRank (fun f : BLEFinding => sevRank f.severity)
      (bleRawFindings re c)).sublist (dedupBy_sublist bKey _)

/-- Counterexample to C1 as stated: on an existing target with no files
the threat modeler conservatively emits the whole catalog, whose order is
not sorted by severity (the transport model lists a medium threat before
a high one), so the threat report violates the claimed ordering. -/
theorem C1_counterexample :
    ¬ ((threatResults trivRe corpusEmpty).threats.Pairwise
      (fun a b => tRank a.severity ≤ tRank b.severity)) := by
  decide

/-- C2 (amended): the auditor's and BLE analyzer's reports are
deduplicated on the code's keys — `(check, file, line)` for the auditor,
`(category, description, file, line)` for the BLE analyzer — so no two
reported findings share a key, `total_findings` is the deduplicated
count, and for every key the entry kept is the first matching entry of
the raw findings in discovery order (the dedup runs after the stable
severity sort, but the key determines the severity, so the first in
sorted order is the first in discovery order).  The threat modeler's
threats are not deduplicated: `total_threats` counts every threat,
duplicates included — see the counterexample. -/
theorem C2_dedup_amended : ∀ (re : Re) (c : Corpus) (filt : Option String),
    ((auditorReport re c filt).findings.Pairwise (fun a b => fKey a ≠ fKey b)) ∧
    (auditorReport re c filt).total_findings = (auditorReport re c filt).findings.length ∧
    ((bleReport re c).findings.Pairwise (fun a b => bKey a ≠ bKey b)) ∧
    (bleReport re c).total_findings = (bleReport re c).findings.length ∧
    (threatResults re c).total_threats = (threatResults re c).threats.length ∧
    (∀ k, (auditorReport re c filt).findings.find? (fun f => decide (fKey f = k)) =
      (auditorRawFindings re c filt).find? (fun f => decide (fKey f = k))) ∧
    (∀ k, (bleReport re c).findings.find? (fun f => decide (bKey f = k)) =
      (bleRawFindings re c).find? (fun f => decide (bKey f = k))) := by
  intro re c filt
  refine ⟨dedupBy_pairwise fKey _, rfl, dedupBy_pairwise bKey _, rfl, rfl, ?_, ?_⟩
  · intro k
    exact (dedupBy_find? fKey k _).trans
      (pySortByRank_find? (fun f => sevRank f.severity) fKey _ k
        (fun x _ => sevRank_mem_sevRanks x.severity)
        (fun a b ha hb hk => auditor_sev_det ha hb hk))
  · intro k
    exact (dedupBy_find? bKey k _).trans
      (pySortByRank_find? (fun f => sevRank f.severity) bKey _ k
        (fun x _ => sevRank_mem_sevRanks x.severity)
        (fun a b ha hb hk => ble_sev_det ha hb hk))

/-- Counterexample to C2 as stated: the threats list of the threat
modeler is not deduplicated.  A single line containing `Random()` twice
yields two custom threats with identical description and identical
`file:line` location, and both are reported (and both are counted by
`total_threats`). -/
theorem C2_counterexample :
    ¬ ((threatResults cexRe corpusRandomTwice).threats.Pairwise
      (fun a b => ¬ (a.description = b.description ∧ a.file_path = b.file_path))) := by
  decide

/-- C4 (amended): the security auditor's Dart scan draws its findings
only from files kept by its exclusion filter (no `/test/` segment in the
normalised path, no `.g.dart`, no `.freezed.dart`), and the BLE
analyzer's Dart line scans draw only from files kept by its filter (no
`/test/`, no `.g.dart` — it does not exclude `.freezed.dart`).  The
threat modeler applies no such exclusion, so its component detection and
custom threats can come from test or generated files — see the
counterexample. -/
theorem C4_exclusion_amended : ∀ (re : Re) (c : Corpus) (filt : Option String),
    ((audit_dart_files re c filt).all (fun f =>
      c.files.any (fun file => pyEndsWith file.path ".dart" && auditorKeepFile file &&
        file.relPath == f.file_path)) = true) ∧
    ((bleLineFindings re c).all (fun f =>
      c.files.any (fun file => pyEndsWith file.path ".dart" && bleKeepFile file &&
        file.relPath == f.file_path)) = true) := by
  intro re c filt
  constructor
  · rw [List.all_eq_true]
    intro f hf
    obtain ⟨file, hfile, hdart, hkeep, ch, _, p, _, _, _, heq⟩ := mem_audit_dart_files hf
    rw [List.any_eq_true]
    refine ⟨file, hfile, ?_⟩
    subst heq
    simp [hdart, hkeep, mkAuditFinding]
  · rw [List.all_eq_true]
    intro f hf
    simp only [bleLineFindings, audit_advertising, audit_gatt_permissions,
      audit_connection_security] at hf
    have key : ∀ (file : SrcFile), file ∈ ble_scan_dart_files c →
        ∀ (rel : String), rel = file.relPath →
        (c.files.any (fun fl => pyEndsWith fl.path ".dart" && bleKeepFile fl &&
          fl.relPath == rel)) = true := by
      intro file hfile rel hrel
      obtain ⟨h1, h2, h3⟩ := mem_ble_scan_dart_files hfile
      rw [List.any_eq_true]
      exact ⟨file, h1, by simp [h2, h3, hrel]⟩
    rcases List.mem_append.mp hf with h1 | hdv
    · rcases List.mem_append.mp h1 with h2 | hconn
      · rcases List.mem_append.mp h2 with hadv | hgatt
        · obtain ⟨file, hfile, ru, _, p, _, _, heq⟩ := mem_bleLineScan hadv
          subst heq
          exact key file hfile _ rfl
        · obtain ⟨file, hfile, ru, _, p, _, _, heq⟩ := mem_bleLineScan hgatt
          subst heq
          exact key file hfile _ rfl
      · obtain ⟨file, hfile, ru, _, p, _, _, heq⟩ := mem_bleLineScan hconn
        subst heq
        exact key file hfile _ rfl
    · obtain ⟨file, hfile, p, _, _, heq⟩ := mem_audit_data_validation hdv
      subst heq
      exact key file hfile _ rfl

/-- Counterexample to C4 as stated: a Dart file under a `/test/`
directory still contributes a custom threat in the threat modeler, which
attributes it to that file's relative path. -/
theorem C4_counterexample :
    containsSub (replaceBackslash fileUnderTest.path) "/test/" = true ∧
    (threatResults cexRe corpusTestDir).threats.any
      (fun t => t.file_path == some "test/a.dart:1") = true := by
  exact ⟨by decide, by decide⟩

/-- C5 (amended): the security auditor's Dart scan suppresses comment
lines, so none of its findings carries a snippet that starts with a
comment marker (the snippet is the stripped matched line, truncated, so a
comment-initial stripped line would surface there).  The BLE analyzer's
line scans perform no comment suppression — see the counterexample. -/
theorem C5_comment_suppression_amended : ∀ (re : Re) (c : Corpus) (filt : Option String),
    (audit_dart_files re c filt).all (fun f =>
      !(pyStartsWith f.code_snippet "//" || pyStartsWith f.code_snippet "*")) = true := by
  intro re c filt
  rw [List.all_eq_true]
  intro f hf
  obtain ⟨file, _, _, _, ch, _, p, _, hcomment, _, heq⟩ := mem_audit_dart_files hf
  subst heq
  simp only [isCommentLine, Bool.or_eq_false_iff] at hcomment
  have h2 : ∀ (m : String), pyStartsWith (pyTake (pyStrip p.2) 120) m = true →
      pyStartsWith (pyStrip p.2) m = true := by
    intro m hm
    exact isPrefixOf_take_imp m.data (pyStrip p.2).data 120 hm
  show (!(pyStartsWith (pyTake (pyStrip p.2) 120) "//" ||
    pyStartsWith (pyTake (pyStrip p.2) 120) "*")) = true
  have hA : pyStartsWith (pyTake (pyStrip p.2) 120) "//" = false := by
    cases hx : pyStartsWith (pyTake (pyStrip p.2) 120) "//"
    · rfl
    · exact absurd (h2 _ hx) (by rw [hcomment.1.1]; simp)
  have hB : pyStartsWith (pyTake (pyStrip p.2) 120) "*" = false := by
    cases hx : pyStartsWith (pyTake (pyStrip p.2) 120) "*"
    · rfl
    · exact absurd (h2 _ hx) (by rw [hcomment.1.2]; simp)
  rw [hA, hB]
  rfl

/-- Counterexample to C5 as stated: a line that is a `//` comment still
produces a BLE advertising finding (single-line mode), with the comment
text as its snippet. -/
theorem C5_counterexample :
    isCommentLine "// localName: x" = true ∧
    (bleReport cexRe corpusCommentLine).findings.map
      (fun f => (f.category, f.description, f.line, f.code_snippet)) =
      [("advertising",
        "Device name included in BLE advertising — identity leak to nearby devices",
        1, "// localName: x")] := by
  exact ⟨by decide, by decide⟩

/-- C7 (amended): under a category filter every finding of the line-based
Dart scan comes from a rule table entry tagged with that category (same
check name and severity); the Android-manifest and iOS-plist scans run
only when the filter is absent or `permissions`, and the pubspec scan
only when the filter is absent or `crypto`.  However those
manifest/plist/pubspec scans emit hardcoded checks that are not tagged
rules, so the report can contain findings drawn from no rule of the
filtered category — see the counterexample. -/
theorem C7_category_filter_amended : ∀ (re : Re) (c : Corpus) (cat : String),
    ((audit_dart_files re c (some cat)).all (fun f =>
      allChecks.any (fun r => r.category == cat && r.check == f.check &&
        r.severity == f.severity)) = true) ∧
    (cat ≠ "permissions" → audit_android_manifest re c (some cat) = [] ∧
      audit_ios_plist c (some cat) = []) ∧
    (cat ≠ "crypto" → audit_pubspec c (some cat) = []) := by
  intro re c cat
  refine ⟨?_, ?_, ?_⟩
  · rw [List.all_eq_true]
    intro f hf
    obtain ⟨file, _, _, _, ch, hch, p, _, _, _, heq⟩ := mem_audit_dart_files hf
    subst heq
    rw [List.any_eq_true]
    refine ⟨ch, getChecks_subset hch, ?_⟩
    have hcat : (ch.category == cat) = true := (List.mem_filter.mp hch).2
    simp [mkAuditFinding, hcat]
  · intro hne
    constructor
    · show (if (cat != "permissions") = true then ([] : List Finding) else _) = []
      rw [if_pos (by simpa using hne)]
    · show (if (cat != "permissions") = true then ([] : List Finding) else _) = []
      rw [if_pos (by simpa using hne)]
  · intro hne
    show (if (cat != "crypto") = true then ([] : List Finding) else _) = []
    rw [if_pos (by simpa using hne)]

/-- Witness for C7 (amended) with the `storage` filter on a concrete
corpus: both gating hypotheses are discharged and the scans are empty. -/
theorem C7_category_filter_witness :
    ((audit_dart_files trivRe corpusEmpty (some "storage")).all (fun f =>
      allChecks.any (fun r => r.category == "storage" && r.check == f.check &&
        r.severity == f.severity)) = true) ∧
    audit_android_manifest trivRe corpusEmpty (some "storage") = [] ∧
    audit_ios_plist corpusEmpty (some "storage") = [] ∧
    audit_pubspec corpusEmpty (some "storage") = [] := by
  have h := C7_category_filter_amended trivRe corpusEmpty "storage"
  exact ⟨h.1, (h.2.1 (by decide)).1, (h.2.1 (by decide)).2, h.2.2 (by decide)⟩

/-- Counterexample to C7 as stated: with the `crypto` filter, a pubspec
whose content is `http:` yields the `http-dependency` finding, whose
check name matches no rule in any rule table (let alone one tagged
`crypto`), so not every reported finding comes from a rule tagged with
the filtered category. -/
theorem C7_counterexample :
    (auditorReport trivRe corpusHttpPubspec (some "crypto")).findings.any (fun f =>
      (allChecks ++ PERMISSION_CHECKS_ANDROID).all (fun r =>
        !(r.check == f.check && r.category == "crypto"))) = true := by
  decide

/-- Length of the Python-slice model. -/
theorem pyTake_length (s : String) (n : Nat) : (pyTake s n).length = min n s.length := by
  show (s.data.take n).length = min n s.data.length
  exact List.length_take ..

/-- C8 (amended): every reported snippet is the whitespace-stripped
matched line truncated to 120 characters, so its length is
`min 120 (stripped length)`: at most 120 always, and exactly 120 whenever
the stripped line has at least 120 characters.  A line longer than 120
characters only through surrounding whitespace yields the full stripped
content, shorter than the cap — see the counterexample. -/
theorem C8_snippet_truncation_amended : ∀ (re : Re) (c : Corpus) (filt : Option String),
    ((auditorReport re c filt).findings.all
      (fun f => decide (f.code_snippet.length ≤ 120)) = true) ∧
    ((bleReport re c).findings.all
      (fun f => decide (f.code_snippet.length ≤ 120)) = true) ∧
    (∀ (ch : Check) (rel : String) (i : Nat) (line : String),
      (mkAuditFinding ch rel i line).code_snippet.length = min 120 (pyStrip line).length) ∧
    (∀ (ru : BLERule) (cat rel : String) (i : Nat) (line : String),
      (mkBLEFinding ru cat rel i line).code_snippet.length = min 120 (pyStrip line).length) ∧
    (∀ (rel : String) (i : Nat) (line : String),
      (mkDVFinding rel i line).code_snippet.length = min 120 (pyStrip line).length) := by
  intro re c filt
  refine ⟨?_, ?_, ?_, ?_, ?_⟩
  · rw [List.all_eq_true]
    intro f hf
    have hraw := mem_auditorReport_findings hf
    simp only [auditorRawFindings] at hraw
    rw [decide_eq_true_eq]
    rcases List.mem_append.mp hraw with h1 | hpub
    · rcases List.mem_append.mp h1 with h2 | hplist
      · rcases List.mem_append.mp h2 with hdart | hman
        · obtain ⟨file, _, _, _, ch, _, p, _, _, _, heq⟩ := mem_audit_dart_files hdart
          subst heq
          show (pyTake (pyStrip p.2) 120).length ≤ 120
          rw [pyTake_length]
          exact Nat.min_le_left _ _
        · obtain ⟨ch, _, rel, i, line, heq⟩ := mem_audit_android_manifest hman
          subst heq
          show (pyTake (pyStrip line) 120).length ≤ 120
          rw [pyTake_length]
          exact Nat.min_le_left _ _
      · obtain ⟨rel, heq⟩ := mem_audit_ios_plist hplist
        subst heq
        show ("UIBackgroundModes: bluetooth + fetch" : String).length ≤ 120
        decide
    · rcases mem_audit_pubspec hpub with h2 | h2 | h2 <;> subst h2
      · show ("http dependency in pubspec.yaml" : String).length ≤ 120
        decide
      · show ("sodium_libs not in dependencies" : String).length ≤ 120
        decide
      · show ("flutter_secure_storage not in dependencies" : String).length ≤ 120
        decide
  · rw [List.all_eq_true]
    intro f hf
    have hraw := mem_bleReport_findings hf
    simp only [bleRawFindings, bleLineFindings, audit_advertising, audit_gatt_permissions,
      audit_connection_security] at hraw
    rw [decide_eq_true_eq]
    rcases List.mem_append.mp hraw with h1 | hperm
    · have hline : ∀ (ru : BLERule) (cat rel : String) (i : Nat) (line : String),
          f = mkBLEFinding ru cat rel i line → f.code_snippet.length ≤ 120 := by
        intro ru cat rel i line heq
        subst heq
        show (pyTake (pyStrip line) 120).length ≤ 120
        rw [pyTake_length]
        exact Nat.min_le_left _ _
      rcases List.mem_append.mp h1 with h2 | hdv
      · rcases List.mem_append.mp h2 with h3 | hconn
        · rcases List.mem_append.mp h3 with hadv | hgatt
          · obtain ⟨file, _, ru, _, p, _, _, heq⟩ := mem_bleLineScan hadv
            exact hline ru _ _ _ _ heq
          · obtain ⟨file, _, ru, _, p, _, _, heq⟩ := mem_bleLineScan hgatt
            exact hline ru _ _ _ _ heq
        · obtain ⟨file, _, ru, _, p, _, _, heq⟩ := mem_bleLineScan hconn
          exact hline ru _ _ _ _ heq
      · obtain ⟨file, _, p, _, _, heq⟩ := mem_audit_data_validation hdv
        subst heq
        show (pyTake (pyStrip p.2) 120).length ≤ 120
        rw [pyTake_length]
        exact Nat.min_le_left _ _
    · obtain ⟨rel, h2⟩ := mem_audit_ble_permissions hperm
      rcases h2 with h2 | h2 | h2 <;> subst h2
      · show ("ACCESS_FINE_LOCATION + BLUETOOTH_SCAN" : String).length ≤ 120
        decide
      · show ("Missing BLUETOOTH_ADVERTISE" : String).length ≤ 120
        decide
      · show ("Missing NSBluetoothAlwaysUsageDescription" : String).length ≤ 120
        decide
  · intro ch rel i line
    exact pyTake_length (pyStrip line) 120
  · intro ru cat rel i line
    exact pyTake_length (pyStrip line) 120
  · intro rel i line
    exact pyTake_length (pyStrip line) 120

set_option maxRecDepth 8192 in
/-- Counterexample to C8 as stated: a matched line of 128 characters (120
spaces of indentation before `Random()`) produces a snippet of length 8 —
the full stripped content — not of length 120, because the snippet is
truncated only after stripping. -/
theorem C8_counterexample :
    longIndentedLine.length = 128 ∧ 120 < longIndentedLine.length ∧
    (auditorReport cexRe corpusLongLine none).findings.map
      (fun f => (f.check, f.line, f.code_snippet.length)) = [("insecure-rng", 1, 8)] := by
  exact ⟨by decide, by decide, by decide⟩

/-- C6: for a line of a file matching the BLE data-handler trigger, if
any recognised validation pattern matches the window of the 15 following
lines then no unvalidated-handler finding is produced for that trigger
(no data-validation finding of the file carries its line number), and
otherwise exactly one finding is produced, anchored at the trigger's
1-based line number. -/
theorem C6_windowed_validation : ∀ (re : Re) (file : SrcFile) (i : Nat) (line : String),
    (pySplitLines file.content).get? (i - 1) = some line → 1 ≤ i →
    re.searchI dvTriggerPattern line = true →
    ((dvValidationPatterns.any (fun vp =>
        re.search vp (dvContext (pySplitLines file.content) i)) = true →
      (audit_data_validation_file re file).countP (fun f => f.line == i) = 0) ∧
     (dvValidationPatterns.any (fun vp =>
        re.search vp (dvContext (pySplitLines file.content) i)) = false →
      (audit_data_validation_file re file).countP (fun f => f.line == i) = 1)) := by
  intro re file i line hget hi htrig
  have hgl : ∀ (p : Nat × String) (f : BLEFinding),
      (if re.searchI dvTriggerPattern p.2 then
        if dvValidationPatterns.any (fun vp =>
          re.search vp (dvContext (pySplitLines file.content) p.1)) then none
        else some (mkDVFinding file.relPath p.1 p.2)
      else none) = some f → f.line = p.1 := by
    intro p f hpf
    by_cases ht : re.searchI dvTriggerPattern p.2
    · rw [if_pos ht] at hpf
      by_cases hv : dvValidationPatterns.any (fun vp =>
          re.search vp (dvContext (pySplitLines file.content) p.1)) = true
      · rw [if_pos hv] at hpf
        exact absurd hpf (by simp)
      · rw [if_neg hv] at hpf
        simp only [Option.some.injEq] at hpf
        rw [← hpf]
        rfl
    · rw [if_neg ht] at hpf
      exact absurd hpf (by simp)
  have key := countP_line_enumFrom (fun p =>
      if re.searchI dvTriggerPattern p.2 then
        if dvValidationPatterns.any (fun vp =>
          re.search vp (dvContext (pySplitLines file.content) p.1)) then none
        else some (mkDVFinding file.relPath p.1 p.2)
      else none) hgl (pySplitLines file.content) 1 i hi
  rw [hget] at key
  simp only [Option.some_bind] at key
  rw [if_pos htrig] at key
  constructor
  · intro hv
    rw [if_pos hv] at key
    exact key
  · intro hv
    rw [if_neg (by simp [hv])] at key
    exact key

/-- Witness for C6 at two concrete files: a trigger with no validation in
the window yields exactly one finding at line 1, and the same trigger
followed by a length check yields none. -/
theorem C6_windowed_validation_witness :
    (audit_data_validation_file cexRe fileHandlerNoValidation).countP
      (fun f => f.line == 1) = 1 ∧
    (audit_data_validation_file cexRe fileHandlerValidated).countP
      (fun f => f.line == 1) = 0 := by
  constructor
  · exact (C6_windowed_validation cexRe fileHandlerNoValidation 1 "onValueReceived"
      (by decide) (by decide) (by decide)).2 (by decide)
  · exact (C6_windowed_validation cexRe fileHandlerValidated 1 "onValueReceived"
      (by decide) (by decide) (by decide)).1 (by decide)
